import Mathlib

/-!
Verification development for the `normalize` travel-message API.

The Python sources under `src/normalize/src` are shallowly embedded here.
Outbound HTTP calls (OpenAI chat completions, the geocoder, the emergency
number API) are modelled by oracle parameters describing the outcome of each
call; everything the repository computes from those outcomes is translated
function by function.  Python `dict`s are modelled as insertion-ordered
association lists, Python `set`s as insertion-ordered duplicate-free lists.
-/

namespace NormalizeBot

/-! ## Python string primitives (`str.lower`, `str.strip`, `in`, `re` char classes) -/

/-- Python whitespace for `str.strip` and the regex class `\s` (ASCII range). -/
def pySpace (c : Char) : Bool :=
  c = ' ' || c = '\t' || c = '\n' || c = '\r' || c = '\x0b' || c = '\x0c'

/-- Python `str.lower`, charwise (ASCII range, which is all the code relies on).
`Char.toLower` is exactly the `A`-`Z` shift used by CPython on ASCII. -/
def pyLower (s : String) : String :=
  ⟨s.data.map Char.toLower⟩

/-- Python `str.strip`: drop whitespace from both ends. -/
def pyStrip (s : String) : String :=
  ⟨((s.data.dropWhile pySpace).reverse.dropWhile pySpace).reverse⟩

/-- Python `sub in s` (substring containment). -/
def strContains (s sub : String) : Bool :=
  decide (sub.data <:+: s.data)

/-- `text_utils.normalize_text`: strip, lowercase, collapse runs of whitespace
to a single space (the regex `re.sub` of `\s+` with a space). -/
def collapseWs : List Char → List Char
  | [] => []
  | c :: rest =>
    if pySpace c then ' ' :: collapseWs (rest.dropWhile pySpace)
    else c :: collapseWs rest
termination_by l => l.length
decreasing_by
  · simp only [List.length_cons]
    exact Nat.lt_succ_of_le (List.dropWhile_sublist pySpace).length_le
  · simp

/-- `text_utils.normalize_text`. -/
def normalize_text (text : String) : String :=
  ⟨collapseWs (pyLower (pyStrip text)).data⟩

/-- `text_utils.extract_phone_digits`: `re.sub` of `\D` with the empty string,
i.e. keep only digit characters. -/
def extract_phone_digits (phone : String) : String :=
  ⟨phone.data.filter Char.isDigit⟩

/-- `text_utils.is_valid_zip`: `re.match` of `^\d{5}$`. -/
def is_valid_zip (zip_code : String) : Bool :=
  zip_code.data.length = 5 && zip_code.data.all Char.isDigit

/-! ## Python dicts as insertion-ordered association lists -/

/-- `d[k] = v` on a Python dict: overwrite in place if the key exists,
append otherwise. -/
def dinsert (m : List (String × String)) (k v : String) : List (String × String) :=
  if m.any (fun p => p.1 = k) then
    m.map (fun p => if p.1 = k then (k, v) else p)
  else m ++ [(k, v)]

/-- `d.get(k)` on a Python dict. -/
def dget (m : List (String × String)) (k : String) : Option String :=
  (m.find? (fun p => p.1 = k)).map (fun p => p.2)

/-- `d1.update(d2)` on Python dicts (entries of `d2` win). -/
def dupdate (m1 m2 : List (String × String)) : List (String × String) :=
  m2.foldl (fun acc p => dinsert acc p.1 p.2) m1

/-- `d.keys()`. -/
def dkeys (m : List (String × String)) : List String :=
  m.map (fun p => p.1)

/-- `d.values()`. -/
def dvalues (m : List (String × String)) : List String :=
  m.map (fun p => p.2)

/-- `s.add(x)` on a Python set, modelled with insertion order. -/
def sinsert (l : List String) (x : String) : List String :=
  if x ∈ l then l else l ++ [x]

/-! ## `logic/categorizer.py` -/

/-- The high-risk keyword list of `_fallback_categorize`. -/
def high_risk_keywords : List String :=
  ["lost passport", "passport stolen", "wallet stolen", "credit card stolen",
   "hospital", "medical emergency", "police", "arrested", "kidnapped",
   "visa denied", "scam", "fraud", "stolen", "emergency"]

/-- The urgent keyword list of `_fallback_categorize`. -/
def urgent_keywords : List String :=
  ["today", "tonight", "tomorrow", "asap", "immediately",
   "urgent", "now", "first thing"]

/-- `categorizer._fallback_categorize`: keyword classification on the
lowercased text; the first matching high-risk keyword returns early, then the
urgent keywords, else `base`. -/
def _fallback_categorize (text : String) : String :=
  let text_lower := pyLower text
  if high_risk_keywords.any (fun k => strContains text_lower k) then "high_risk"
  else if urgent_keywords.any (fun k => strContains text_lower k) then "urgent"
  else "base"

/-- `categorizer.categorize`.  The oracle is `none` when the HTTP call (or the
JSON access to the response) raises, in which case the code falls back;
`some content` is the message content returned by the LLM. -/
def categorize (llm : Option String) (text : String) : String :=
  match llm with
  | none => _fallback_categorize text
  | some content =>
    let category := pyLower (pyStrip content)
    if category = "urgent" || category = "high_risk" || category = "base" then category
    else "base"

/-! ## Regex machinery

The repository uses a handful of concrete `re` patterns.  Each pattern is
translated into an explicit matcher over `List Char`; `re.search` is scanning
the matcher across every start position, leftmost first. -/

/-- The regex class `\w` (ASCII approximation used throughout). -/
def wordChar (c : Char) : Bool :=
  c.isAlphanum || c = '_'

/-- The regex class `[A-Z]`. -/
def isUpperAZ (c : Char) : Bool :=
  'A' ≤ c && c ≤ 'Z'

/-- The regex class `[a-z]`. -/
def isLowerAZ (c : Char) : Bool :=
  'a' ≤ c && c ≤ 'z'

/-- Match a literal at the current position, returning the rest. -/
def eatLit : List Char → List Char → Option (List Char)
  | [], cs => some cs
  | _, [] => none
  | p :: ps, c :: cs => if c = p then eatLit ps cs else none

/-- Match `\s+` at the current position. -/
def eatSpaces1 (cs : List Char) : Option (List Char) :=
  let sp := cs.takeWhile pySpace
  if sp.isEmpty then none else some (cs.drop sp.length)

/-- Match `\s*` at the current position (always succeeds). -/
def eatSpaces0 (cs : List Char) : List Char :=
  cs.drop (cs.takeWhile pySpace).length

/-- Match `\d{n}` at the current position, returning the digit group. -/
def eatDigits : Nat → List Char → Option (List Char × List Char)
  | 0, cs => some ([], cs)
  | _ + 1, [] => none
  | n + 1, c :: cs =>
    if c.isDigit then (eatDigits n cs).map (fun p => (c :: p.1, p.2)) else none

/-- Match `([A-Z][a-z]+)` at the current position, returning the group. -/
def eatCapWord : List Char → Option (List Char × List Char)
  | [] => none
  | c :: rest =>
    if isUpperAZ c then
      let lows := rest.takeWhile isLowerAZ
      if lows.isEmpty then none else some (c :: lows, rest.drop lows.length)
    else none

/-- Match `[A-Za-z]+` at the current position. -/
def eatLetters1 (cs : List Char) : Option (List Char) :=
  let ls := cs.takeWhile (fun c => isUpperAZ c || isLowerAZ c)
  if ls.isEmpty then none else some (cs.drop ls.length)

/-- `re.search`: try the matcher at each start position, leftmost first. -/
def searchFrom {α : Type} (m : List Char → Option α) : List Char → Option α
  | [] => m []
  | c :: rest =>
    match m (c :: rest) with
    | some a => some a
    | none => searchFrom m rest

/-- `re.search` for patterns with a leading `\b`: the matcher also receives
the character preceding the current position (`none` at the string start). -/
def searchFromB {α : Type} (m : Option Char → List Char → Option α) :
    Option Char → List Char → Option α
  | prev, [] => m prev []
  | prev, c :: rest =>
    match m prev (c :: rest) with
    | some a => some a
    | none => searchFromB m (some c) rest

/-- A `\b` boundary holds before the current position iff the preceding
character is absent or not a word character. -/
def boundaryOk (prev : Option Char) : Bool :=
  match prev with
  | none => true
  | some c => !wordChar c

/-! ## `logic/text_utils.py`: `is_valid_email`

The pattern is `[\w\.\+\-]+@[\w\.\-]+\.\w+` via `re.match` (anchored at the
start only).  The local part and `@` are disjoint character classes, so the
greedy `+` is deterministic; inside the domain the engine backtracks to the
last `.` that is followed by a word character. -/

/-- The regex class `[\w\.\+\-]` (email local part). -/
def emailLocalChar (c : Char) : Bool :=
  wordChar c || c = '.' || c = '+' || c = '-'

/-- The regex class `[\w\.\-]` (email domain part). -/
def emailDomainChar (c : Char) : Bool :=
  wordChar c || c = '.' || c = '-'

/-- Index of the last `.` inside the domain run that has at least one domain
character before it and a word character after it (the split the backtracking
engine settles on). -/
def emailDotIdx (dom : List Char) : Option Nat :=
  ((List.range dom.length).filter (fun j =>
    decide (1 ≤ j) && (dom.get? j == some '.') &&
      (match dom.get? (j + 1) with
       | some c => wordChar c
       | none => false))).getLast?

/-- Match the email pattern at the current position, returning the matched
text (`match.group(0)`). -/
def matchEmail (cs : List Char) : Option String :=
  let loc := cs.takeWhile emailLocalChar
  if loc.isEmpty then none
  else
    match cs.drop loc.length with
    | '@' :: rest =>
      let dom := rest.takeWhile emailDomainChar
      match emailDotIdx dom with
      | some j =>
        let tail := (dom.drop (j + 1)).takeWhile wordChar
        some ⟨loc ++ '@' :: (dom.take j ++ '.' :: tail)⟩
      | none => none
    | _ => none

/-- `text_utils.is_valid_email`: `re.match` of the email pattern. -/
def is_valid_email (email : String) : Bool :=
  (matchEmail email.data).isSome

/-! ## JSON values

`json.loads` can produce values of any JSON type in any position, so the
parsed LLM responses are modelled over a JSON value type (numbers are
modelled by integers; only their truthiness matters here and `0`/`0.0` are
both falsy). -/

/-- A JSON value. -/
inductive Json where
  | null
  | str (s : String)
  | num (n : Int)
  | bool (b : Bool)
  | arr (elems : List Json)
  | obj (fields : List (String × Json))

/-- Python truthiness of a decoded JSON value: `None`, the empty string,
zero, `False` and empty collections are falsy. -/
def jsonTruthy : Json → Bool
  | .null => false
  | .str s => !s.data.isEmpty
  | .num n => decide (n ≠ 0)
  | .bool b => b
  | .arr l => !l.isEmpty
  | .obj l => !l.isEmpty

/-- The JSON value of an optional string (used where the source builds a
dict out of `Optional[str]` values). -/
def encOptStr : Option String → Json
  | none => Json.null
  | some s => Json.str s

/-! ## `logic/extract_contact.py` -/

/-- The JSON object the LLM returns for contact extraction.  `.get` on a
missing key yields `None`, which coincides with JSON `null`, so each field is
an arbitrary JSON value with `null` for an absent key. -/
structure ContactJson where
  first_name : Json
  last_name : Json
  email : Json
  phone : Json
  zip : Json

/-- Outcome of the contact-extraction LLM call: the HTTP call raised, the
content was not valid JSON, or a parsed object. -/
inductive ContactLLM where
  | failure
  | unparseable
  | parsed (j : ContactJson)

/-- The dict `extract_contact` returns (keys `first_name`, `last_name`,
`email`, `phone`, `zip`).  On the parsed path falsy values are passed
through unchanged, so the values are JSON values, not only strings. -/
structure ContactData where
  first_name : Json
  last_name : Json
  email : Json
  phone : Json
  zip : Json

/-- Python truthiness of an optional string (`None` and the empty string are
falsy). -/
def optTruthy : Option String → Bool
  | none => false
  | some s => !s.data.isEmpty

/-- Match one expected literal character. -/
def expectChar (c : Char) : List Char → Option (List Char)
  | x :: rest => if x = c then some rest else none
  | [] => none

/-- Match the optional separator `[-.]?` (greedy; the following digit class
is disjoint, so this is deterministic). -/
def eatSepOpt : List Char → List Char
  | '-' :: r => r
  | '.' :: r => r
  | r => r

/-- Match the mandatory separator `[-.]`. -/
def eatSep1 : List Char → Option (List Char)
  | '-' :: r => some r
  | '.' :: r => some r
  | _ => none

/-- Matcher for `\((\d{3})\)\s*(\d{3})[-.]?(\d{4})` at the current position. -/
def matchPhone1 (cs : List Char) : Option (List Char × List Char × List Char) :=
  (expectChar '(' cs).bind fun cs1 =>
  (eatDigits 3 cs1).bind fun p1 =>
  (expectChar ')' p1.2).bind fun cs3 =>
  (eatDigits 3 (eatSpaces0 cs3)).bind fun p2 =>
  (eatDigits 4 (eatSepOpt p2.2)).bind fun p3 =>
  some (p1.1, p2.1, p3.1)

/-- Matcher for `(\d{3})[-.](\d{3})[-.](\d{4})` at the current position. -/
def matchPhone2 (cs : List Char) : Option (List Char × List Char × List Char) :=
  (eatDigits 3 cs).bind fun p1 =>
  (eatSep1 p1.2).bind fun cs2 =>
  (eatDigits 3 cs2).bind fun p2 =>
  (eatSep1 p2.2).bind fun cs4 =>
  (eatDigits 4 cs4).bind fun p3 =>
  some (p1.1, p2.1, p3.1)

/-- Matcher for `(\d{3})\s+(\d{3})\s+(\d{4})` at the current position. -/
def matchPhone3 (cs : List Char) : Option (List Char × List Char × List Char) :=
  (eatDigits 3 cs).bind fun p1 =>
  (eatSpaces1 p1.2).bind fun cs2 =>
  (eatDigits 3 cs2).bind fun p2 =>
  (eatSpaces1 p2.2).bind fun cs4 =>
  (eatDigits 4 cs4).bind fun p3 =>
  some (p1.1, p2.1, p3.1)

/-- Matcher for `(\d{10})` at the current position. -/
def matchPhone4 (cs : List Char) : Option (List Char) :=
  (eatDigits 10 cs).map (fun p => p.1)

/-- `extract_contact._extract_phone_fallback`: try the four patterns in
order with `re.search`; join the groups and keep the digits. -/
def _extract_phone_fallback (text : String) : Option String :=
  match searchFrom matchPhone1 text.data with
  | some (g1, g2, g3) => some (extract_phone_digits ⟨g1 ++ g2 ++ g3⟩)
  | none =>
    match searchFrom matchPhone2 text.data with
    | some (g1, g2, g3) => some (extract_phone_digits ⟨g1 ++ g2 ++ g3⟩)
    | none =>
      match searchFrom matchPhone3 text.data with
      | some (g1, g2, g3) => some (extract_phone_digits ⟨g1 ++ g2 ++ g3⟩)
      | none =>
        match searchFrom matchPhone4 text.data with
        | some g => some (extract_phone_digits ⟨g⟩)
        | none => none

/-- Matcher for the tail `\s+([A-Z][a-z]+)\s+([A-Z][a-z]+)` shared by the
three name patterns. -/
def eatTwoCapWords (cs : List Char) : Option (List Char × List Char) :=
  match eatSpaces1 cs with
  | some cs1 =>
    match eatCapWord cs1 with
    | some (g1, cs2) =>
      match eatSpaces1 cs2 with
      | some cs3 =>
        match eatCapWord cs3 with
        | some (g2, _) => some (g1, g2)
        | none => none
      | none => none
    | none => none
  | none => none

/-- Matcher for `(?:I'm|I am|This is)\s+([A-Z][a-z]+)\s+([A-Z][a-z]+)`. -/
def matchName1 (cs : List Char) : Option (List Char × List Char) :=
  let lead := match eatLit ("I\x27m".data) cs with
    | some r => some r
    | none =>
      match eatLit ("I am".data) cs with
      | some r => some r
      | none => eatLit ("This is".data) cs
  match lead with
  | some cs1 => eatTwoCapWords cs1
  | none => none

/-- Matcher for
`(?:Hi|Hello|Hey)\s+[A-Za-z]+,\s*I'm\s+([A-Z][a-z]+)\s+([A-Z][a-z]+)`. -/
def matchName2 (cs : List Char) : Option (List Char × List Char) :=
  let lead := match eatLit ("Hi".data) cs with
    | some r => some r
    | none =>
      match eatLit ("Hello".data) cs with
      | some r => some r
      | none => eatLit ("Hey".data) cs
  match lead with
  | some cs1 =>
    match eatSpaces1 cs1 with
    | some cs2 =>
      match eatLetters1 cs2 with
      | some cs3 =>
        match cs3 with
        | ',' :: cs4 =>
          match eatLit ("I\x27m".data) (eatSpaces0 cs4) with
          | some cs5 => eatTwoCapWords cs5
          | none => none
        | _ => none
      | none => none
    | none => none
  | none => none

/-- Matcher for `My name is\s+([A-Z][a-z]+)\s+([A-Z][a-z]+)`. -/
def matchName3 (cs : List Char) : Option (List Char × List Char) :=
  match eatLit ("My name is".data) cs with
  | some cs1 => eatTwoCapWords cs1
  | none => none

/-- `extract_contact._extract_names_fallback`: first matching pattern wins,
returning the two groups. -/
def _extract_names_fallback (text : String) : Option (String × String) :=
  match searchFrom matchName1 text.data with
  | some (g1, g2) => some (⟨g1⟩, ⟨g2⟩)
  | none =>
    match searchFrom matchName2 text.data with
    | some (g1, g2) => some (⟨g1⟩, ⟨g2⟩)
    | none =>
      match searchFrom matchName3 text.data with
      | some (g1, g2) => some (⟨g1⟩, ⟨g2⟩)
      | none => none

/-- `extract_contact._extract_email_fallback`: `re.search` of the email
pattern, returning the matched text. -/
def _extract_email_fallback (text : String) : Option String :=
  searchFrom matchEmail text.data

/-- Matcher for `\b(\d{5})\b` (with the preceding character for the left
boundary). -/
def matchZip (prev : Option Char) (cs : List Char) : Option (List Char) :=
  if boundaryOk prev then
    match eatDigits 5 cs with
    | some (g, rest) =>
      match rest with
      | [] => some g
      | c :: _ => if wordChar c then none else some g
    | none => none
  else none

/-- `extract_contact._extract_zip_fallback`. -/
def _extract_zip_fallback (text : String) : Option String :=
  (searchFromB matchZip none text.data).map (fun g => (⟨g⟩ : String))

/-- `extract_contact._fallback_extract_contact`: regex extraction of names,
email, phone and ZIP (every value here is `None` or a string). -/
def _fallback_extract_contact (text : String) : ContactData :=
  let names := _extract_names_fallback text
  let email := _extract_email_fallback text
  let phone := _extract_phone_fallback text
  let zip_code := _extract_zip_fallback text
  { first_name := encOptStr (names.map (fun p => p.1))
    last_name := encOptStr (names.map (fun p => p.2))
    email := encOptStr
      (match email with
       | some e => if is_valid_email e then some e else none
       | none => none)
    phone := encOptStr phone
    zip := encOptStr
      (match zip_code with
       | some z => if is_valid_zip z then some z else none
       | none => none) }

/-- The email revalidation step of the parsed path: a falsy value is left
unchanged, a truthy string is dropped unless it validates, and a truthy
non-string makes `is_valid_email` raise `TypeError` (escaping to the outer
`except`, modelled as `none`). -/
def cleanFieldEmail (v : Json) : Option Json :=
  if jsonTruthy v then
    match v with
    | .str s => some (if is_valid_email s then Json.str s else Json.null)
    | _ => none
  else some v

/-- The phone revalidation step of the parsed path: a falsy value is left
unchanged, a truthy string is reduced to its digits and dropped unless
exactly ten remain, and a truthy non-string makes `extract_phone_digits`
raise `TypeError` (modelled as `none`). -/
def cleanFieldPhone (v : Json) : Option Json :=
  if jsonTruthy v then
    match v with
    | .str s =>
      let d := extract_phone_digits s
      some (if d.data.length = 10 then Json.str d else Json.null)
    | _ => none
  else some v

/-- The ZIP revalidation step of the parsed path, analogous to the email
step with `is_valid_zip`. -/
def cleanFieldZip (v : Json) : Option Json :=
  if jsonTruthy v then
    match v with
    | .str s => some (if is_valid_zip s then Json.str s else Json.null)
    | _ => none
  else some v

/-- Validation of the parsed contact object, in source order (email, then
phone, then ZIP); `none` when any step raises, in which case the outer
`except Exception` of `extract_contact` falls back to the regex path. -/
def cleanContact (j : ContactJson) : Option ContactData :=
  (cleanFieldEmail j.email).bind fun email =>
  (cleanFieldPhone j.phone).bind fun phone =>
  (cleanFieldZip j.zip).bind fun zip =>
  some { first_name := j.first_name
         last_name := j.last_name
         email := email
         phone := phone
         zip := zip }

/-- `extract_contact.extract_contact`.  On a parsed LLM object the fields
are revalidated (truthy invalid email or ZIP dropped, truthy phone reduced
to ten digits or dropped, falsy values passed through unchanged); a raising
validation — a truthy non-string field — lands in the outer `except` and
falls back, as do a failed call and unparseable content. -/
def extract_contact (llm : ContactLLM) (text : String) : ContactData :=
  match llm with
  | .failure => _fallback_extract_contact text
  | .unparseable => _fallback_extract_contact text
  | .parsed j =>
    match cleanContact j with
    | some cleaned => cleaned
    | none => _fallback_extract_contact text

/-! ## `logic/extract_entities.py` -/

/-- An entity of the response: a `type` in
`city | country | hotel | restaurant` and a lowercase `value`. -/
structure Entity where
  type : String
  value : String
deriving DecidableEq

/-- The typo dict produced by entity extraction. -/
structure Typos where
  city_typo : Option String
  country_typo : Option String
  phone_number_typo : Option String
  zip_code_typo : Option String
deriving DecidableEq

/-- The all-`None` typo dict (used by the old array format and the regex
fallback). -/
def noTypos : Typos :=
  { city_typo := none, country_typo := none,
    phone_number_typo := none, zip_code_typo := none }

/-- An element of the JSON `entities` array as returned by the LLM: the
`type` and `value` keys, each possibly missing or not a string. -/
structure RawEntity where
  etype : Option String
  evalue : Option String

/-- Outcome of the entity-extraction LLM call.  `parsedList` is the old
array format (entities only), `parsedObj` the object format with a typo
dict. -/
inductive EntLLM where
  | failure
  | unparseable
  | parsedList (entities : List RawEntity)
  | parsedObj (entities : List RawEntity) (typos : Typos)

/-- Outcome of one `_geocode_city` task as observed by the gathering loop:
an exception captured by `asyncio.gather`, the empty dict (no usable place,
or an exception swallowed inside `_geocode_city`), or a dict holding the
display name and the upper-cased country code. -/
inductive GeoResult where
  | error
  | empty
  | found (city : String) (country_code : String)
deriving DecidableEq

/-- The country code a geocoding outcome contributes, if any. -/
def geoCode? : GeoResult → Option String
  | .found _ code => some code
  | _ => none

/-- The static name table of `_get_country_name_mappings`
(country names and major cities to ISO codes), transcribed entry for
entry. -/
def country_table (s : String) : Option String :=
  match s with
  | "south africa" => some "ZA"
  | "south korea" => some "KR"
  | "north korea" => some "KP"
  | "united states" => some "US"
  | "united kingdom" => some "GB"
  | "great britain" => some "GB"
  | "germany" => some "DE"
  | "france" => some "FR"
  | "italy" => some "IT"
  | "spain" => some "ES"
  | "netherlands" => some "NL"
  | "belgium" => some "BE"
  | "switzerland" => some "CH"
  | "austria" => some "AT"
  | "china" => some "CN"
  | "japan" => some "JP"
  | "australia" => some "AU"
  | "canada" => some "CA"
  | "mexico" => some "MX"
  | "brazil" => some "BR"
  | "argentina" => some "AR"
  | "chile" => some "CL"
  | "colombia" => some "CO"
  | "peru" => some "PE"
  | "venezuela" => some "VE"
  | "russia" => some "RU"
  | "india" => some "IN"
  | "thailand" => some "TH"
  | "vietnam" => some "VN"
  | "singapore" => some "SG"
  | "malaysia" => some "MY"
  | "indonesia" => some "ID"
  | "philippines" => some "PH"
  | "turkey" => some "TR"
  | "egypt" => some "EG"
  | "morocco" => some "MA"
  | "kenya" => some "KE"
  | "nigeria" => some "NG"
  | "ghana" => some "GH"
  | "iran" => some "IR"
  | "iraq" => some "IQ"
  | "israel" => some "IL"
  | "jordan" => some "JO"
  | "lebanon" => some "LB"
  | "saudi arabia" => some "SA"
  | "uae" => some "AE"
  | "united arab emirates" => some "AE"
  | "new zealand" => some "NZ"
  | "paris" => some "FR"
  | "london" => some "GB"
  | "berlin" => some "DE"
  | "madrid" => some "ES"
  | "barcelona" => some "ES"
  | "amsterdam" => some "NL"
  | "brussels" => some "BE"
  | "vienna" => some "AT"
  | "zurich" => some "CH"
  | "geneva" => some "CH"
  | "stockholm" => some "SE"
  | "oslo" => some "NO"
  | "copenhagen" => some "DK"
  | "helsinki" => some "FI"
  | "prague" => some "CZ"
  | "budapest" => some "HU"
  | "warsaw" => some "PL"
  | "moscow" => some "RU"
  | "st petersburg" => some "RU"
  | "tokyo" => some "JP"
  | "osaka" => some "JP"
  | "kyoto" => some "JP"
  | "seoul" => some "KR"
  | "beijing" => some "CN"
  | "shanghai" => some "CN"
  | "hong kong" => some "HK"
  | "bangkok" => some "TH"
  | "mumbai" => some "IN"
  | "delhi" => some "IN"
  | "bangalore" => some "IN"
  | "sydney" => some "AU"
  | "melbourne" => some "AU"
  | "toronto" => some "CA"
  | "vancouver" => some "CA"
  | "montreal" => some "CA"
  | "new york" => some "US"
  | "nyc" => some "US"
  | "los angeles" => some "US"
  | "chicago" => some "US"
  | "san francisco" => some "US"
  | "miami" => some "US"
  | "las vegas" => some "US"
  | "boston" => some "US"
  | "washington" => some "US"
  | "seattle" => some "US"
  | "mexico city" => some "MX"
  | "cancun" => some "MX"
  | "rio de janeiro" => some "BR"
  | "sao paulo" => some "BR"
  | "buenos aires" => some "AR"
  | "lima" => some "PE"
  | "santiago" => some "CL"
  | "bogota" => some "CO"
  | "caracas" => some "VE"
  | "cairo" => some "EG"
  | "cape town" => some "ZA"
  | "johannesburg" => some "ZA"
  | "nairobi" => some "KE"
  | "istanbul" => some "TR"
  | "athens" => some "GR"
  | "lisbon" => some "PT"
  | "dublin" => some "IE"
  | "reykjavik" => some "IS"
  | "tel aviv" => some "IL"
  | "dubai" => some "AE"
  | "doha" => some "QA"
  | "riyadh" => some "SA"
  | _ => none

/-- Loop body of `_get_country_name_mappings`: record the static-table hit
for one name, if any. -/
def tstep (result : List (String × String)) (city_name : String) :
    List (String × String) :=
  match country_table city_name with
  | some code => dinsert result city_name code
  | none => result

/-- `extract_entities._get_country_name_mappings`: look every name up in the
static table and collect the hits into a dict. -/
def _get_country_name_mappings (city_names : List String) : List (String × String) :=
  city_names.foldl tstep []

/-- Loop body of `_get_country_codes`: a task that yielded a dict with `city`
and `country_code` stores the code under the lowercased name; a task that
raised or yielded the empty dict is skipped. -/
def gstep (geo : String → GeoResult) (country_map : List (String × String))
    (city_name : String) : List (String × String) :=
  match geo city_name with
  | .found _ code => dinsert country_map (pyLower city_name) code
  | _ => country_map

/-- `extract_entities._get_country_codes`: geocode every name concurrently
and collect the successful outcomes. -/
def _get_country_codes (geo : String → GeoResult) (city_names : List String) :
    List (String × String) :=
  city_names.foldl (gstep geo) []

/-- Validation of one raw entity (`type` and `value` keys present, `type` in
the whitelist, `value` a string), producing the lowercased-and-stripped
entity. -/
def validateEntity (r : RawEntity) : Option Entity :=
  match r.etype, r.evalue with
  | some t, some v =>
    if t = "city" || t = "country" || t = "hotel" || t = "restaurant" then
      some { type := t, value := pyStrip (pyLower v) }
    else none
  | _, _ => none

/-- The successfully-parsed branch of `extract_entities`: validate the
entities, geocode the city values, then overlay the static-table hits for the
city values and finally for the country values. -/
def parsedBranch (geo : String → GeoResult) (raws : List RawEntity) (typos : Typos) :
    List Entity × List (String × String) × Typos :=
  let validated_entities := raws.filterMap validateEntity
  let city_entities := validated_entities.filter (fun e => e.type = "city")
  let country_entities := validated_entities.filter (fun e => e.type = "country")
  let country_map :=
    if !city_entities.isEmpty then
      let city_names := city_entities.map (fun e => e.value)
      dupdate (_get_country_codes geo city_names) (_get_country_name_mappings city_names)
    else []
  let country_map :=
    if !country_entities.isEmpty then
      dupdate country_map (_get_country_name_mappings (country_entities.map (fun e => e.value)))
    else country_map
  (validated_entities, country_map, typos)

/-- Greedy extension step for `(?:\s+[A-Z][a-z]+)*`: repeatedly consume
one-or-more spaces followed by a capitalised word (fuel-driven; the fuel is
instantiated with the remaining length, which bounds the iteration count). -/
def extendCaps : Nat → List Char → List Char → List Char × List Char
  | 0, acc, cs => (acc, cs)
  | fuel + 1, acc, cs =>
    let sp := cs.takeWhile pySpace
    if sp.isEmpty then (acc, cs)
    else
      match eatCapWord (cs.drop sp.length) with
      | some (w, rest) => extendCaps fuel (acc ++ sp ++ w) rest
      | none => (acc, cs)

/-- Matcher for `\bKW\s+([A-Z][a-z]+(?:\s+[A-Z][a-z]+)*)` at the current
position, for `KW` one of the literals `in` and `to`.  Returns the group, the
rest of the input and the last consumed character (which carries the word
boundary into the continued scan). -/
def matchKwCity (kw : List Char) (prev : Option Char) (cs : List Char) :
    Option (String × List Char × Char) :=
  if boundaryOk prev then
    match eatLit kw cs with
    | some afterKw =>
      match eatSpaces1 afterKw with
      | some afterSp =>
        match eatCapWord afterSp with
        | some (w, rest0) =>
          let ext := extendCaps rest0.length w rest0
          some (⟨ext.1⟩, ext.2, (ext.1.getLast?).getD ' ')
        | none => none
      | none => none
    | none => none
  else none

/-- `re.findall` for the boundary-guarded patterns: scan left to right,
collecting the group of each non-overlapping match and resuming right after
it (fuel-driven on the remaining length). -/
def findAllB (m : Option Char → List Char → Option (String × List Char × Char)) :
    Nat → Option Char → List Char → List String
  | 0, _, _ => []
  | _ + 1, _, [] => []
  | fuel + 1, prev, c :: rest =>
    match m prev (c :: rest) with
    | some (g, after, lastc) => g :: findAllB m fuel (some lastc) after
    | none => findAllB m fuel (some c) rest

/-- The hard-coded phrase list of `_extract_city_candidates_fallback`. -/
def city_phrases : List String :=
  ["New York City", "New York", "Los Angeles", "San Francisco",
   "Las Vegas", "Miami", "Chicago", "Boston", "Seattle",
   "Paris", "London", "Rome", "Barcelona", "Amsterdam", "Berlin",
   "Tokyo", "Sydney", "Dubai", "Istanbul"]

/-- `extract_entities._extract_city_candidates_fallback`: the two regex
patterns contribute their stripped groups of length `> 1`, then each known
phrase contained (case-insensitively) in the text is added.  The Python
`set` is modelled as an insertion-ordered duplicate-free list. -/
def _extract_city_candidates_fallback (text : String) : List String :=
  let fromRe :=
    findAllB (matchKwCity ("in".data)) (text.data.length + 1) none text.data ++
    findAllB (matchKwCity ("to".data)) (text.data.length + 1) none text.data
  let candidates := fromRe.foldl
    (fun candidates m =>
      let city := pyStrip m
      if city.data.length > 1 then sinsert candidates city else candidates) []
  city_phrases.foldl
    (fun candidates phrase =>
      if strContains (pyLower text) (pyLower phrase) then sinsert candidates phrase
      else candidates) candidates

/-- `extract_entities._validate_cities_fallback`: geocode every candidate;
each successful task stores its display name with the country code. -/
def _validate_cities_fallback (geo : String → GeoResult) (candidates : List String) :
    List (String × String) :=
  candidates.foldl
    (fun validated candidate =>
      match geo candidate with
      | .found city code => dinsert validated city code
      | _ => validated) []

/-- The keyword set of `_extract_hotels_fallback` (iteration order of the
Python set is irrelevant: only `chapter roma` ever appends). -/
def hotel_keywords : List String :=
  ["hotel", "inn", "resort", "lodge", "hostel", "marriott", "hilton", "hyatt",
   "four seasons", "chapter roma"]

/-- `extract_entities._extract_hotels_fallback`: of all keywords only
`chapter roma` appends (the literal `Chapter Roma`). -/
def _extract_hotels_fallback (text : String) : List String :=
  let normalized := normalize_text text
  hotel_keywords.foldl
    (fun hotels keyword =>
      if strContains normalized keyword then
        if keyword = "chapter roma" then
          if strContains normalized "chapter roma" then hotels ++ ["Chapter Roma"]
          else hotels
        else hotels
      else hotels) []

/-- `extract_entities._extract_restaurants_fallback`: the loop body never
appends, so the result is always empty. -/
def _extract_restaurants_fallback (_text : String) : List String :=
  []

/-- `extract_entities._fallback_extract_entities`: regex candidates validated
by geocoding become city entities (lowercased display name) and country-map
entries; keyword hotels and restaurants are appended lowercased.  No typos
are reported on this path. -/
def _fallback_extract_entities (geo : String → GeoResult) (text : String) :
    List Entity × List (String × String) × Typos :=
  let city_candidates := _extract_city_candidates_fallback text
  let validated_cities := _validate_cities_fallback geo city_candidates
  let entities :=
    validated_cities.map (fun p => Entity.mk "city" (pyLower p.1)) ++
    (_extract_hotels_fallback text).map (fun h => Entity.mk "hotel" (pyLower h)) ++
    (_extract_restaurants_fallback text).map (fun r => Entity.mk "restaurant" (pyLower r))
  let country_map :=
    validated_cities.foldl (fun m p => dinsert m (pyLower p.1) p.2) []
  (entities, country_map, noTypos)

/-- `extract_entities.extract_entities`: the parsed LLM output is validated
and the country map merged from geocoding and the static table; a failed call
or unparseable content falls back to the regex path. -/
def extract_entities (llm : EntLLM) (geo : String → GeoResult) (text : String) :
    List Entity × List (String × String) × Typos :=
  match llm with
  | .failure => _fallback_extract_entities geo text
  | .unparseable => _fallback_extract_entities geo text
  | .parsedList raws => parsedBranch geo raws noTypos
  | .parsedObj raws typos => parsedBranch geo raws typos

/-! ## `logic/enrich.py` -/

/-- The set of unique country codes of `_get_emergency_numbers`
(`set(country_map.values())`), as an insertion-ordered duplicate-free
list. -/
def emergency_lookup_codes (country_map : List (String × String)) : List String :=
  (dvalues country_map).foldl sinsert []

/-- The accumulated emergency-number set of `_get_emergency_numbers`: one
fetch per unique country code; a task that raised contributes nothing, a
task that returned a list has those numbers added to the set. -/
def emergencyNumbersSet (fetch : String → Except Unit (List String))
    (country_map : List (String × String)) : List String :=
  (emergency_lookup_codes country_map).foldl
    (fun emergency_numbers code =>
      match fetch code with
      | .ok numbers => numbers.foldl sinsert emergency_numbers
      | .error _ => emergency_numbers) []

/-- `enrich._get_emergency_numbers`: the collected set as a list, or `None`
if it is empty. -/
def _get_emergency_numbers (fetch : String → Except Unit (List String))
    (country_map : List (String × String)) : Option (List String) :=
  let nums := emergencyNumbersSet fetch country_map
  if nums.isEmpty then none else some nums

/-- `enrich.enrich`: if no city or country entity is present the enrichment
is empty and no lookup happens; otherwise the emergency numbers are fetched
per unique country code of the map. -/
def enrich (entities : List Entity) (country_map : List (String × String))
    (fetch : String → Except Unit (List String)) : Option (List String) :=
  let locations :=
    (entities.filter (fun e => e.type = "city" || e.type = "country")).map
      (fun e => e.value)
  if locations.isEmpty then none
  else _get_emergency_numbers fetch country_map

/-- `enrich._fetch_emergency_numbers`: the decoded `data` object of the
emergency-number API for one country. -/
structure EmergencyData where
  member_112 : Bool
  dispatch_all : Option (List String)
  police_all : Option (List String)

/-- The JSON body of one emergency-number API response: either not an object
with a `data` key, or a decoded `data` object. -/
inductive EmergencyApiResponse where
  | invalid
  | ok (data : EmergencyData)

/-- Python truthiness of the optional `all` lists (`None` and `[]` are
falsy). -/
def listTruthy : Option (List String) → Bool
  | none => false
  | some l => !l.isEmpty

/-- The `numbers` list `_fetch_emergency_numbers` accumulates before
deduplication: `112` first for members of the 112 group, then the non-blank
dispatch numbers, then the non-blank police numbers not already collected. -/
def emergencyNumbersRaw (data : EmergencyData) : List String :=
  let numbers0 : List String := if data.member_112 then ["112"] else []
  let numbers1 :=
    if listTruthy data.dispatch_all then
      numbers0 ++ (data.dispatch_all.getD []).filter (fun num => !(pyStrip num).data.isEmpty)
    else numbers0
  if listTruthy data.police_all then
    numbers1 ++ (data.police_all.getD []).filter
      (fun num => !(pyStrip num).data.isEmpty && !numbers1.contains num)
  else numbers1

/-- `enrich._fetch_emergency_numbers` on a response the call produced, or
`.error` when the call raised (any exception yields the empty list); the
accumulated numbers are deduplicated preserving order. -/
def _fetch_emergency_numbers (resp : Except Unit EmergencyApiResponse) : List String :=
  match resp with
  | .error _ => []
  | .ok .invalid => []
  | .ok (.ok data) => (emergencyNumbersRaw data).foldl sinsert []

/-! ## `models.py` and `app.py` -/

/-- `models.NormalizeIn`. -/
structure NormalizeIn where
  message_id : String
  text : String

/-- `models.Enrichment`. -/
structure Enrichment where
  local_emergency_numbers : Option (List String)
  city_typo : Option String
  country_typo : Option String
  phone_number_typo : Option String
  zip_code_typo : Option String
deriving DecidableEq

/-- `models.NormalizeOut`. -/
structure NormalizeOut where
  message_id : String
  category : String
  contact : Option ContactData
  entities : Option (List Entity)
  enrichment : Option Enrichment

/-- Outcomes of the outbound calls a single `/normalize` request performs:
the three LLM calls, the per-city geocoding outcomes and the per-country
emergency-number outcomes. -/
structure Oracles where
  contactLLM : ContactLLM
  entLLM : EntLLM
  catLLM : Option String
  geo : String → GeoResult
  fetch : String → Except Unit (List String)

/-- `any(contact_data.values())` over the JSON values of the contact dict. -/
def contactTruthy (c : ContactData) : Bool :=
  jsonTruthy c.first_name || jsonTruthy c.last_name || jsonTruthy c.email ||
    jsonTruthy c.phone || jsonTruthy c.zip

/-- `any(enrichment_data.values())` after the typo update. -/
def enrichmentTruthy (e : Enrichment) : Bool :=
  listTruthy e.local_emergency_numbers || optTruthy e.city_typo ||
    optTruthy e.country_typo || optTruthy e.phone_number_typo ||
    optTruthy e.zip_code_typo

/-- The successful path of `app.normalize_message`: extract the contact
(kept only if some field is truthy), the entities (kept only if non-empty),
the category, and the enrichment merged with the typo dict (kept only if some
value is truthy). -/
def normalize_message (o : Oracles) (request : NormalizeIn) : NormalizeOut :=
  let contact_data := extract_contact o.contactLLM request.text
  let contact := if contactTruthy contact_data then some contact_data else none
  let r := extract_entities o.entLLM o.geo request.text
  let entities_data := r.1
  let country_map := r.2.1
  let typo_data := r.2.2
  let entities := if entities_data.isEmpty then none else some entities_data
  let category := categorize o.catLLM request.text
  let emergency := enrich entities_data country_map o.fetch
  let enrichment_data : Enrichment :=
    { local_emergency_numbers := emergency
      city_typo := typo_data.city_typo
      country_typo := typo_data.country_typo
      phone_number_typo := typo_data.phone_number_typo
      zip_code_typo := typo_data.zip_code_typo }
  let enrichment := if enrichmentTruthy enrichment_data then some enrichment_data else none
  { message_id := request.message_id
    category := category
    contact := contact
    entities := entities
    enrichment := enrichment }

/-- Encoding of a successful `NormalizeOut` body. -/
def encodeNormalizeOut (r : NormalizeOut) : Json :=
  Json.obj
    [("message_id", Json.str r.message_id),
     ("category", Json.str r.category),
     ("contact",
       match r.contact with
       | none => Json.null
       | some c => Json.obj
           [("first_name", c.first_name),
            ("last_name", c.last_name),
            ("email", c.email),
            ("phone", c.phone),
            ("zip", c.zip)]),
     ("entities",
       match r.entities with
       | none => Json.null
       | some es => Json.arr (es.map (fun e =>
           Json.obj [("type", Json.str e.type), ("value", Json.str e.value)]))),
     ("enrichment",
       match r.enrichment with
       | none => Json.null
       | some e => Json.obj
           [("local_emergency_numbers",
             match e.local_emergency_numbers with
             | none => Json.null
             | some ns => Json.arr (ns.map Json.str)),
            ("city_typo", encOptStr e.city_typo),
            ("country_typo", encOptStr e.country_typo),
            ("phone_number_typo", encOptStr e.phone_number_typo),
            ("zip_code_typo", encOptStr e.zip_code_typo)])]

/-- How one `/normalize` request terminates.

`bodyValidationError`: an invalid request body makes FastAPI raise
`RequestValidationError`, and the framework's pre-registered handler for that
exact class answers first — status 422 with body `{"detail": [...]}` (a list
of error objects).  The `ValidationError` handler registered in `app.py` is
not consulted for it.

`validationError`: a bare pydantic `ValidationError` reaching the handler
registered in `app.py` (400, `{"error", "detail"}`).  No reachable code path
produces one — the model constructors inside `normalize_message` run under
its `try` and become the 500 — but the registered handler is kept in the
model.

`handlerException`: any exception inside the `try` of `normalize_message`,
converted into `HTTPException(500, ...)` and serialised by
`http_exception_handler` (the only `HTTPException` this repository raises).

`unhandledException`: an exception outside the handler, serialised by
`general_exception_handler`. -/
inductive RequestOutcome where
  | bodyValidationError (errs : List Json)
  | validationError (msg : String)
  | handlerException
  | unhandledException
  | success (resp : NormalizeOut)

/-- The HTTP status and JSON body produced for each request outcome, per
FastAPI's default `RequestValidationError` handler and the exception
handlers of `app.py`. -/
def respond : RequestOutcome → Nat × Json
  | .bodyValidationError errs =>
    (422, Json.obj [("detail", Json.arr errs)])
  | .validationError msg =>
    (400, Json.obj [("error", Json.str "BadRequest"), ("detail", Json.str msg)])
  | .handlerException =>
    (500, Json.obj [("error", Json.str "InternalError"),
                    ("detail", Json.str "An internal error occurred")])
  | .unhandledException =>
    (500, Json.obj [("error", Json.str "InternalError"),
                    ("detail", Json.str "An unexpected error occurred")])
  | .success resp => (200, encodeNormalizeOut resp)

/-! ## Outbound call traces

Each operation issues its outbound HTTP calls in a fixed pattern that does
not depend on the outcome except for the LLM-to-fallback switch; the traces
below record those calls (target and timeout) exactly as the source issues
them.  The LLM client is always constructed with `timeout=10.0`; the
geocoder and emergency clients use the timeout parameter threaded from
`HTTP_TIMEOUT_SECONDS`. -/

/-- One outbound HTTP call with its timeout. -/
inductive Call where
  | llm (timeout : Rat)
  | geocode (city : String) (timeout : Rat)
  | emergency (code : String) (timeout : Rat)
deriving DecidableEq

/-- Whether a call is an LLM chat-completion call. -/
def isLlmCall : Call → Bool
  | .llm _ => true
  | _ => false

/-- Calls issued by `categorize`: exactly the one LLM request (the fallback
is local). -/
def categorize_calls : List Call :=
  [Call.llm 10]

/-- Calls issued by `extract_contact`: exactly the one LLM request. -/
def extract_contact_calls : List Call :=
  [Call.llm 10]

/-- The list of names `extract_entities` geocodes, one task per element: the
city values on the parsed path (none when there is no city entity), the regex
candidates on the fallback path. -/
def entity_geo_batch (llm : EntLLM) (text : String) : List String :=
  match llm with
  | .failure => _extract_city_candidates_fallback text
  | .unparseable => _extract_city_candidates_fallback text
  | .parsedList raws =>
    let city_entities := (raws.filterMap validateEntity).filter (fun e => e.type = "city")
    if !city_entities.isEmpty then city_entities.map (fun e => e.value) else []
  | .parsedObj raws _ =>
    let city_entities := (raws.filterMap validateEntity).filter (fun e => e.type = "city")
    if !city_entities.isEmpty then city_entities.map (fun e => e.value) else []

/-- Calls issued by `extract_entities`: the one LLM request followed by one
geocoding request per batched name. -/
def extract_entities_calls (llm : EntLLM) (text : String) (t : Rat) : List Call :=
  Call.llm 10 :: (entity_geo_batch llm text).map (fun n => Call.geocode n t)

/-- The country codes `enrich` looks up: none when no city or country entity
exists, otherwise one per unique country code of the map. -/
def enrich_lookup_codes (entities : List Entity) (country_map : List (String × String)) :
    List String :=
  let locations :=
    (entities.filter (fun e => e.type = "city" || e.type = "country")).map
      (fun e => e.value)
  if locations.isEmpty then [] else emergency_lookup_codes country_map

/-- Calls issued by `enrich`: one emergency-number request per looked-up
code. -/
def enrich_calls (entities : List Entity) (country_map : List (String × String))
    (t : Rat) : List Call :=
  (enrich_lookup_codes entities country_map).map (fun c => Call.emergency c t)

/-! ## Lemmas: lowercasing -/

theorem toNat_ofNat_valid {n : Nat} (h : n.isValidChar) : (Char.ofNat n).toNat = n := by
  simp only [Char.ofNat, dif_pos h, Char.ofNatAux, Char.toNat]
  simp [UInt32.toNat]

theorem toLower_notUpper (c : Char) :
    ¬((Char.toLower c).toNat ≥ 65 ∧ (Char.toLower c).toNat ≤ 90) ∨ Char.toLower c = c := by
  unfold Char.toLower
  by_cases h : c.toNat ≥ 65 ∧ c.toNat ≤ 90
  · left
    rw [if_pos h, toNat_ofNat_valid (Or.inl (by omega))]
    omega
  · right
    rw [if_neg h]

theorem toLower_toLower (c : Char) : Char.toLower (Char.toLower c) = Char.toLower c := by
  rcases toLower_notUpper c with h | h
  · generalize hd : Char.toLower c = d at h ⊢
    simp only [Char.toLower]
    rw [if_neg h]
  · simp only [h]

theorem mem_data_pyLower {c : Char} {s : String} (h : c ∈ (pyLower s).data) :
    Char.toLower c = c := by
  simp only [pyLower] at h
  obtain ⟨c0, _, rfl⟩ := List.mem_map.mp h
  exact toLower_toLower c0

theorem mem_data_pyStrip {c : Char} {s : String} (h : c ∈ (pyStrip s).data) :
    c ∈ s.data := by
  simp only [pyStrip, List.mem_reverse] at h
  have h1 := ((List.dropWhile_sublist pySpace).mem h)
  rw [List.mem_reverse] at h1
  exact (List.dropWhile_sublist pySpace).mem h1

theorem map_id_of_fixed {l : List Char} {f : Char → Char} (h : ∀ c ∈ l, f c = c) :
    l.map f = l := by
  induction l with
  | nil => rfl
  | cons c rest ih =>
    simp only [List.map_cons, h c (by simp), List.cons.injEq, true_and]
    exact ih (fun x hx => h x (by simp [hx]))

/-- Values produced by entity validation are fixed by lowercasing. -/
theorem pyLower_strip_lower (v : String) :
    pyLower (pyStrip (pyLower v)) = pyStrip (pyLower v) := by
  show String.mk _ = _
  rw [map_id_of_fixed (fun c hc => mem_data_pyLower (mem_data_pyStrip hc))]

theorem pyLower_pyLower (v : String) : pyLower (pyLower v) = pyLower v := by
  show String.mk _ = _
  rw [map_id_of_fixed (fun c hc => mem_data_pyLower hc)]

/-! ## Lemmas: dict operations -/

theorem dget_nil (k : String) : dget [] k = none := rfl

theorem dget_cons (p : String × String) (m : List (String × String)) (k : String) :
    dget (p :: m) k = if p.1 = k then some p.2 else dget m k := by
  simp only [dget, List.find?]
  by_cases h : p.1 = k
  · simp [h]
  · simp [h]

theorem dget_map_subst (m : List (String × String)) (k v k' : String) :
    dget (m.map (fun p => if p.1 = k then (k, v) else p)) k' =
      if k' = k then (dget m k).map (fun _ => v) else dget m k' := by
  induction m with
  | nil => by_cases h : k' = k <;> simp [dget, h]
  | cons p rest ih =>
    by_cases hp : p.1 = k
    · by_cases hk' : k' = k
      · subst hk'
        simp [dget_cons, hp, ih]
      · have h1 : ¬ k = k' := fun h => hk' h.symm
        have h2 : ¬ p.1 = k' := by rw [hp]; exact h1
        simp [dget_cons, hp, hk', h1, h2, ih]
    · by_cases hk' : k' = k
      · subst hk'
        simp [dget_cons, hp, ih]
      · by_cases hpk' : p.1 = k'
        · simp [dget_cons, hp, hk', hpk', ih]
        · simp [dget_cons, hp, hk', hpk', ih]

theorem dget_append_single (m : List (String × String)) (k v k' : String) :
    dget (m ++ [(k, v)]) k' =
      match dget m k' with
      | some w => some w
      | none => if k' = k then some v else none := by
  induction m with
  | nil =>
    by_cases h : k' = k
    · subst h
      simp [dget_nil, dget_cons]
    · have h1 : ¬ k = k' := fun hh => h hh.symm
      simp [dget_nil, dget_cons, h, h1]
  | cons p rest ih =>
    by_cases hpk' : p.1 = k'
    · rw [List.cons_append, dget_cons, dget_cons, if_pos hpk', if_pos hpk']
    · rw [List.cons_append, dget_cons, dget_cons, if_neg hpk', if_neg hpk', ih]

theorem any_key_iff_dget (m : List (String × String)) (k : String) :
    m.any (fun p => p.1 = k) = true ↔ (dget m k).isSome := by
  induction m with
  | nil => simp [dget]
  | cons p rest ih =>
    rw [List.any_cons, dget_cons]
    by_cases hpk : p.1 = k
    · simp [hpk]
    · simpa [hpk] using ih

theorem dget_dinsert (m : List (String × String)) (k v k' : String) :
    dget (dinsert m k v) k' = if k' = k then some v else dget m k' := by
  unfold dinsert
  by_cases hmem : m.any (fun p => p.1 = k)
  · rw [if_pos hmem, dget_map_subst]
    by_cases hk' : k' = k
    · rw [if_pos hk', if_pos hk']
      obtain ⟨w, hw⟩ := Option.isSome_iff_exists.mp ((any_key_iff_dget m k).mp hmem)
      rw [hw]
      rfl
    · rw [if_neg hk', if_neg hk']
  · rw [if_neg hmem, dget_append_single]
    by_cases hk' : k' = k
    · subst hk'
      have : dget m k' = none := by
        by_contra hne
        exact hmem ((any_key_iff_dget m k').mpr (Option.isSome_iff_ne_none.mpr hne))
      rw [this, if_pos rfl]
    · cases h : dget m k' with
      | some w => simp [if_neg hk']
      | none => simp [if_neg hk']

theorem mem_dkeys_cons (p : String × String) (m : List (String × String)) (k : String) :
    k ∈ dkeys (p :: m) ↔ p.1 = k ∨ k ∈ dkeys m := by
  simp only [dkeys, List.map_cons, List.mem_cons]
  constructor
  · rintro (h | h)
    · exact Or.inl h.symm
    · exact Or.inr h
  · rintro (h | h)
    · exact Or.inl h.symm
    · exact Or.inr h

/-- `dget` as membership of the key list. -/
theorem dget_isSome_iff_mem_dkeys (m : List (String × String)) (k : String) :
    (dget m k).isSome ↔ k ∈ dkeys m := by
  induction m with
  | nil => simp [dget, dkeys]
  | cons p rest ih =>
    rw [dget_cons, mem_dkeys_cons]
    by_cases hp : p.1 = k
    · simp [hp]
    · rw [if_neg hp, ih]
      simp [hp]

/-- Key membership after `dinsert`. -/
theorem mem_dkeys_dinsert {m : List (String × String)} {k v k' : String} :
    k' ∈ dkeys (dinsert m k v) ↔ k' = k ∨ k' ∈ dkeys m := by
  rw [← dget_isSome_iff_mem_dkeys, ← dget_isSome_iff_mem_dkeys, dget_dinsert]
  by_cases hk : k' = k
  · simp [hk]
  · simp [hk]

/-- Updating cannot touch a key absent from the update dict. -/
theorem dget_dupdate_of_not_mem {m2 : List (String × String)} {k : String}
    (h : k ∉ dkeys m2) (m1 : List (String × String)) :
    dget (dupdate m1 m2) k = dget m1 k := by
  induction m2 generalizing m1 with
  | nil => rfl
  | cons p rest ih =>
    have hk : k ∉ dkeys rest := fun hh => h ((mem_dkeys_cons p rest k).mpr (Or.inr hh))
    have hpk : ¬ p.1 = k := fun hh => h ((mem_dkeys_cons p rest k).mpr (Or.inl hh))
    show dget (dupdate (dinsert m1 p.1 p.2) rest) k = dget m1 k
    rw [ih hk, dget_dinsert, if_neg (fun hh => hpk hh.symm)]

/-- Keys of a dict built by successive `dinsert`s are duplicate-free. -/
def NodupKeys (m : List (String × String)) : Prop :=
  (dkeys m).Nodup

theorem nodupKeys_dinsert {m : List (String × String)} (h : NodupKeys m) (k v : String) :
    NodupKeys (dinsert m k v) := by
  unfold dinsert
  by_cases hmem : m.any (fun p => p.1 = k)
  · rw [if_pos hmem]
    have : dkeys (m.map (fun p => if p.1 = k then (k, v) else p)) = dkeys m := by
      unfold dkeys
      rw [List.map_map]
      apply List.map_congr_left
      intro p _
      by_cases hp : p.1 = k
      · simp [hp]
      · simp [hp]
    unfold NodupKeys
    rw [this]
    exact h
  · rw [if_neg hmem]
    unfold NodupKeys dkeys
    rw [List.map_append]
    apply List.Nodup.append h (by simp)
    intro a ha hb
    simp only [List.map_cons, List.map_nil, List.mem_singleton] at hb
    subst hb
    exact hmem ((any_key_iff_dget m _).mpr ((dget_isSome_iff_mem_dkeys m _).mpr ha))

/-- A duplicate-free-keyed binding survives an update that contains it. -/
theorem dget_dupdate_of_mem {m2 : List (String × String)} (h2 : NodupKeys m2)
    {k v : String} (h : dget m2 k = some v) (m1 : List (String × String)) :
    dget (dupdate m1 m2) k = some v := by
  induction m2 generalizing m1 with
  | nil => simp [dget] at h
  | cons p rest ih =>
    rw [dget_cons] at h
    by_cases hp : p.1 = k
    · rw [if_pos hp] at h
      have hknotin : k ∉ dkeys rest := by
        unfold NodupKeys at h2
        simp only [dkeys, List.map_cons] at h2
        rw [← hp]
        exact (List.nodup_cons.mp h2).1
      show dget (dupdate (dinsert m1 p.1 p.2) rest) k = some v
      rw [dget_dupdate_of_not_mem hknotin, dget_dinsert, if_pos hp.symm, h]
    · rw [if_neg hp] at h
      have h2' : NodupKeys rest := by
        unfold NodupKeys at h2 ⊢
        simp only [dkeys, List.map_cons] at h2
        exact (List.nodup_cons.mp h2).2
      exact ih h2' h (dinsert m1 p.1 p.2)

/-! ## Lemmas: the two country-resolution folds -/

theorem dget_tstep_fold (names : List String) (acc : List (String × String)) (k : String) :
    dget (names.foldl tstep acc) k =
      if k ∈ names ∧ (country_table k).isSome then country_table k else dget acc k := by
  induction names generalizing acc with
  | nil => simp
  | cons n rest ih =>
    rw [List.foldl_cons, ih]
    by_cases hkr : k ∈ rest ∧ (country_table k).isSome
    · rw [if_pos hkr, if_pos ⟨List.mem_cons_of_mem n hkr.1, hkr.2⟩]
    · rw [if_neg hkr]
      by_cases hk : k = n
      · subst hk
        cases hc : country_table k with
        | some code =>
          rw [if_pos ⟨List.mem_cons_self k rest, by simp⟩]
          simp only [tstep, hc]
          rw [dget_dinsert, if_pos rfl]
        | none =>
          rw [if_neg (fun h => by simp [hc] at h)]
          simp only [tstep, hc]
      · have hmem : ¬(k ∈ n :: rest ∧ (country_table k).isSome) := by
          intro h
          rcases List.mem_cons.mp h.1 with h1 | h1
          · exact hk h1
          · exact hkr ⟨h1, h.2⟩
        rw [if_neg hmem]
        cases hc : country_table n with
        | some code =>
          simp only [tstep, hc]
          rw [dget_dinsert, if_neg hk]
        | none => simp only [tstep, hc]

theorem dget_country_name_mappings (names : List String) (k : String) :
    dget (_get_country_name_mappings names) k =
      if k ∈ names ∧ (country_table k).isSome then country_table k else none := by
  unfold _get_country_name_mappings
  rw [dget_tstep_fold]
  rfl

theorem mem_dkeys_country_name_mappings (names : List String) (k : String) :
    k ∈ dkeys (_get_country_name_mappings names) ↔
      k ∈ names ∧ (country_table k).isSome := by
  rw [← dget_isSome_iff_mem_dkeys, dget_country_name_mappings]
  by_cases h : k ∈ names ∧ (country_table k).isSome
  · simp [h, h.2]
  · simp [h]

theorem nodupKeys_tstep_fold (names : List String) (acc : List (String × String))
    (h : NodupKeys acc) : NodupKeys (names.foldl tstep acc) := by
  induction names generalizing acc with
  | nil => exact h
  | cons n rest ih =>
    rw [List.foldl_cons]
    apply ih
    unfold tstep
    cases country_table n with
    | some code => exact nodupKeys_dinsert h n code
    | none => exact h

theorem nodupKeys_country_name_mappings (names : List String) :
    NodupKeys (_get_country_name_mappings names) :=
  nodupKeys_tstep_fold names [] (by simp [NodupKeys, dkeys])

theorem dget_gstep_fold (geo : String → GeoResult) (names : List String)
    (hlow : ∀ n ∈ names, pyLower n = n) (acc : List (String × String)) (k : String) :
    dget (names.foldl (gstep geo) acc) k =
      if k ∈ names ∧ (geoCode? (geo k)).isSome then geoCode? (geo k) else dget acc k := by
  induction names generalizing acc with
  | nil => simp
  | cons n rest ih =>
    have hlown : pyLower n = n := hlow n (List.mem_cons_self n rest)
    have hlowr : ∀ x ∈ rest, pyLower x = x := fun x hx => hlow x (List.mem_cons_of_mem n hx)
    rw [List.foldl_cons, ih hlowr]
    by_cases hkr : k ∈ rest ∧ (geoCode? (geo k)).isSome
    · rw [if_pos hkr, if_pos ⟨List.mem_cons_of_mem n hkr.1, hkr.2⟩]
    · rw [if_neg hkr]
      by_cases hk : k = n
      · subst hk
        cases hg : geo k with
        | found nm code =>
          rw [if_pos ⟨List.mem_cons_self k rest, by simp [geoCode?, hg]⟩]
          simp only [gstep, hg, geoCode?]
          rw [hlown, dget_dinsert, if_pos rfl]
        | error =>
          rw [if_neg (fun h => by simp [geoCode?, hg] at h)]
          simp only [gstep, hg]
        | empty =>
          rw [if_neg (fun h => by simp [geoCode?, hg] at h)]
          simp only [gstep, hg]
      · have hmem : ¬(k ∈ n :: rest ∧ (geoCode? (geo k)).isSome) := by
          intro h
          rcases List.mem_cons.mp h.1 with h1 | h1
          · exact hk h1
          · exact hkr ⟨h1, h.2⟩
        rw [if_neg hmem]
        cases hg : geo n with
        | found nm code =>
          simp only [gstep, hg]
          rw [hlown, dget_dinsert, if_neg hk]
        | error => simp only [gstep, hg]
        | empty => simp only [gstep, hg]

theorem dget_country_codes (geo : String → GeoResult) (names : List String)
    (hlow : ∀ n ∈ names, pyLower n = n) (k : String) :
    dget (_get_country_codes geo names) k =
      if k ∈ names ∧ (geoCode? (geo k)).isSome then geoCode? (geo k) else none := by
  unfold _get_country_codes
  rw [dget_gstep_fold geo names hlow]
  rfl

/-- Entries of the geocode map come only from successful geocoding tasks
(no hypothesis on the names). -/
theorem gstep_fold_entries (geo : String → GeoResult) (names : List String)
    (acc : List (String × String)) (k v : String)
    (h : dget (names.foldl (gstep geo) acc) k = some v) :
    (∃ n ∈ names, pyLower n = k ∧ ∃ nm, geo n = .found nm v) ∨ dget acc k = some v := by
  induction names generalizing acc with
  | nil => exact Or.inr h
  | cons n rest ih =>
    rw [List.foldl_cons] at h
    rcases ih (gstep geo acc n) h with h1 | h1
    · obtain ⟨n', hn', hk, nm, hg⟩ := h1
      exact Or.inl ⟨n', List.mem_cons_of_mem n hn', hk, nm, hg⟩
    · unfold gstep at h1
      cases hg : geo n with
      | found nm code =>
        rw [hg] at h1
        rw [dget_dinsert] at h1
        by_cases hk : k = pyLower n
        · rw [if_pos hk] at h1
          exact Or.inl ⟨n, List.mem_cons_self n rest, hk.symm, nm, by
            rw [hg, Option.some_inj.mp h1]⟩
        · rw [if_neg hk] at h1
          exact Or.inr h1
      | error =>
        rw [hg] at h1
        exact Or.inr h1
      | empty =>
        rw [hg] at h1
        exact Or.inr h1

theorem dget_gstep_isSome (geo : String → GeoResult) (acc : List (String × String))
    (n k : String) (h : (dget acc k).isSome) : (dget (gstep geo acc n) k).isSome := by
  unfold gstep
  cases geo n with
  | found nm code =>
    rw [dget_dinsert]
    by_cases hk : k = pyLower n
    · simp [hk]
    · simpa [hk] using h
  | error => exact h
  | empty => exact h

theorem gstep_fold_preserves (geo : String → GeoResult) (names : List String)
    (acc : List (String × String)) (k : String) (h : (dget acc k).isSome) :
    (dget (names.foldl (gstep geo) acc) k).isSome := by
  induction names generalizing acc with
  | nil => exact h
  | cons n rest ih =>
    rw [List.foldl_cons]
    exact ih (gstep geo acc n) (dget_gstep_isSome geo acc n k h)

/-- Every successful geocoding task leaves an entry under its lowercased
name (no hypothesis on the names). -/
theorem gstep_fold_success_mem (geo : String → GeoResult) (names : List String)
    (acc : List (String × String)) (n nm code : String) (hn : n ∈ names)
    (hg : geo n = .found nm code) :
    (dget (names.foldl (gstep geo) acc) (pyLower n)).isSome := by
  induction names generalizing acc with
  | nil => simp at hn
  | cons m rest ih =>
    rw [List.foldl_cons]
    rcases List.mem_cons.mp hn with h1 | h1
    · subst h1
      apply gstep_fold_preserves
      unfold gstep
      rw [hg, dget_dinsert, if_pos rfl]
      rfl
    · exact ih (gstep geo acc m) h1

/-! ## Lemmas: set folds -/

theorem mem_sinsert {l : List String} {x y : String} :
    y ∈ sinsert l x ↔ y ∈ l ∨ y = x := by
  unfold sinsert
  by_cases h : x ∈ l
  · rw [if_pos h]
    constructor
    · exact fun hy => Or.inl hy
    · rintro (hy | hy)
      · exact hy
      · rw [hy]; exact h
  · rw [if_neg h]
    simp

theorem nodup_sinsert {l : List String} (h : l.Nodup) (x : String) :
    (sinsert l x).Nodup := by
  unfold sinsert
  by_cases hx : x ∈ l
  · rw [if_pos hx]; exact h
  · rw [if_neg hx]
    exact List.Nodup.append h (by simp) (by
      intro a ha hb
      simp only [List.mem_singleton] at hb
      subst hb
      exact hx ha)

theorem mem_sinsert_fold (l : List String) (acc : List String) (y : String) :
    y ∈ l.foldl sinsert acc ↔ y ∈ acc ∨ y ∈ l := by
  induction l generalizing acc with
  | nil => simp
  | cons x rest ih =>
    rw [List.foldl_cons, ih, mem_sinsert]
    constructor
    · rintro ((h | h) | h)
      · exact Or.inl h
      · exact Or.inr (by rw [h]; exact List.mem_cons_self x rest)
      · exact Or.inr (List.mem_cons_of_mem x h)
    · rintro (h | h)
      · exact Or.inl (Or.inl h)
      · rcases List.mem_cons.mp h with h1 | h1
        · exact Or.inl (Or.inr h1)
        · exact Or.inr h1

theorem nodup_sinsert_fold (l : List String) (acc : List String) (h : acc.Nodup) :
    (l.foldl sinsert acc).Nodup := by
  induction l generalizing acc with
  | nil => exact h
  | cons x rest ih =>
    rw [List.foldl_cons]
    exact ih (sinsert acc x) (nodup_sinsert h x)

/-- The unique-code list drawn from the country map: duplicate-free, same
members as the map values. -/
theorem emergency_lookup_codes_nodup (country_map : List (String × String)) :
    (emergency_lookup_codes country_map).Nodup :=
  nodup_sinsert_fold _ [] (by simp)

theorem mem_emergency_lookup_codes (country_map : List (String × String)) (c : String) :
    c ∈ emergency_lookup_codes country_map ↔ c ∈ dvalues country_map := by
  unfold emergency_lookup_codes
  rw [mem_sinsert_fold]
  simp

/-- Loop body of the gathering loop in `_get_emergency_numbers`. -/
theorem mem_emergencyNumbersSet (fetch : String → Except Unit (List String))
    (country_map : List (String × String)) (x : String) :
    x ∈ emergencyNumbersSet fetch country_map ↔
      ∃ code ∈ emergency_lookup_codes country_map,
        ∃ ns, fetch code = .ok ns ∧ x ∈ ns := by
  unfold emergencyNumbersSet
  generalize emergency_lookup_codes country_map = codes
  have main : ∀ (codes : List String) (acc : List String),
      x ∈ codes.foldl
        (fun emergency_numbers code =>
          match fetch code with
          | .ok numbers => numbers.foldl sinsert emergency_numbers
          | .error _ => emergency_numbers) acc ↔
      x ∈ acc ∨ ∃ code ∈ codes, ∃ ns, fetch code = .ok ns ∧ x ∈ ns := by
    intro codes
    induction codes with
    | nil => simp
    | cons c rest ih =>
      intro acc
      rw [List.foldl_cons, ih]
      cases hf : fetch c with
      | ok ns =>
        rw [mem_sinsert_fold]
        constructor
        · rintro ((h | h) | h)
          · exact Or.inl h
          · exact Or.inr ⟨c, List.mem_cons_self c rest, ns, hf, h⟩
          · obtain ⟨code, hc, ns', hf', hx⟩ := h
            exact Or.inr ⟨code, List.mem_cons_of_mem c hc, ns', hf', hx⟩
        · rintro (h | h)
          · exact Or.inl (Or.inl h)
          · obtain ⟨code, hc, ns', hf', hx⟩ := h
            rcases List.mem_cons.mp hc with h1 | h1
            · subst h1
              rw [hf] at hf'
              rw [Except.ok.injEq] at hf'
              subst hf'
              exact Or.inl (Or.inr hx)
            · exact Or.inr ⟨code, h1, ns', hf', hx⟩
      | error e =>
        constructor
        · rintro (h | h)
          · exact Or.inl h
          · obtain ⟨code, hc, ns', hf', hx⟩ := h
            exact Or.inr ⟨code, List.mem_cons_of_mem c hc, ns', hf', hx⟩
        · rintro (h | h)
          · exact Or.inl h
          · obtain ⟨code, hc, ns', hf', hx⟩ := h
            rcases List.mem_cons.mp hc with h1 | h1
            · subst h1
              rw [hf] at hf'
              cases hf'
            · exact Or.inr ⟨code, h1, ns', hf', hx⟩
  rw [main codes []]
  simp

/-! ## Lemmas: entity validation and the merged country map -/

theorem validateEntity_spec {r : RawEntity} {e : Entity} (h : validateEntity r = some e) :
    (e.type = "city" ∨ e.type = "country" ∨ e.type = "hotel" ∨ e.type = "restaurant") ∧
      pyLower e.value = e.value := by
  unfold validateEntity at h
  cases ht : r.etype with
  | none => rw [ht] at h; cases h
  | some t =>
    cases hv : r.evalue with
    | none => rw [ht, hv] at h; cases h
    | some v =>
      rw [ht, hv] at h
      dsimp only at h
      by_cases hw : t = "city" || t = "country" || t = "hotel" || t = "restaurant"
      · rw [if_pos hw] at h
        have he : e = { type := t, value := pyStrip (pyLower v) } := (Option.some_inj.mp h).symm
        subst he
        constructor
        · have := by simpa [Bool.or_eq_true, decide_eq_true_eq] using hw
          tauto
        · exact pyLower_strip_lower v
      · rw [if_neg hw] at h
        cases h

/-- The (lowercased) value list of the validated city entities. -/
def parsedCityNames (raws : List RawEntity) : List String :=
  ((raws.filterMap validateEntity).filter (fun e => e.type = "city")).map
    (fun e => e.value)

/-- The (lowercased) value list of the validated country entities. -/
def parsedCountryNames (raws : List RawEntity) : List String :=
  ((raws.filterMap validateEntity).filter (fun e => e.type = "country")).map
    (fun e => e.value)

theorem parsedCityNames_lower (raws : List RawEntity) :
    ∀ n ∈ parsedCityNames raws, pyLower n = n := by
  intro n hn
  obtain ⟨e, he, hv⟩ := List.mem_map.mp hn
  obtain ⟨r, _, hr⟩ := List.mem_filterMap.mp (List.mem_of_mem_filter he)
  rw [← hv]
  exact (validateEntity_spec hr).2

/-- The country map of the parsed branch equals the unconditional
three-layer merge (the emptiness guards in the source are no-ops because the
folds over empty lists produce the empty dict). -/
theorem parsedBranch_country_map (geo : String → GeoResult) (raws : List RawEntity)
    (typos : Typos) :
    (parsedBranch geo raws typos).2.1 =
      dupdate
        (dupdate (_get_country_codes geo (parsedCityNames raws))
          (_get_country_name_mappings (parsedCityNames raws)))
        (_get_country_name_mappings (parsedCountryNames raws)) := by
  unfold parsedBranch parsedCityNames parsedCountryNames
  by_cases hc : ((raws.filterMap validateEntity).filter (fun e => e.type = "city")).isEmpty
  · have hnil : ((raws.filterMap validateEntity).filter (fun e => e.type = "city")) = [] :=
      List.isEmpty_iff.mp hc
    by_cases hcc :
        ((raws.filterMap validateEntity).filter (fun e => e.type = "country")).isEmpty
    · have hnil2 : ((raws.filterMap validateEntity).filter (fun e => e.type = "country")) = [] :=
        List.isEmpty_iff.mp hcc
      simp [hc, hcc, hnil, hnil2, _get_country_codes, _get_country_name_mappings, dupdate]
    · have hnil2 := hcc
      simp [hc, hcc, hnil, _get_country_codes, _get_country_name_mappings, dupdate]
  · by_cases hcc :
        ((raws.filterMap validateEntity).filter (fun e => e.type = "country")).isEmpty
    · have hnil2 : ((raws.filterMap validateEntity).filter (fun e => e.type = "country")) = [] :=
        List.isEmpty_iff.mp hcc
      simp [hc, hcc, hnil2, _get_country_name_mappings, dupdate]
    · simp [hc, hcc]

/-- Full characterization of the merged country map of the parsed branch:
country entities through the static table first, then static-table hits for
city values, then the geocoding results. -/
theorem dget_parsed_map (geo : String → GeoResult) (raws : List RawEntity)
    (typos : Typos) (k : String) :
    dget ((parsedBranch geo raws typos).2.1) k =
      if k ∈ parsedCountryNames raws ∧ (country_table k).isSome then country_table k
      else if k ∈ parsedCityNames raws ∧ (country_table k).isSome then country_table k
      else if k ∈ parsedCityNames raws ∧ (geoCode? (geo k)).isSome then geoCode? (geo k)
      else none := by
  rw [parsedBranch_country_map]
  by_cases h2 : k ∈ parsedCountryNames raws ∧ (country_table k).isSome
  · rw [if_pos h2]
    obtain ⟨w, hw⟩ := Option.isSome_iff_exists.mp h2.2
    rw [hw]
    apply dget_dupdate_of_mem (nodupKeys_country_name_mappings _)
    · rw [dget_country_name_mappings, if_pos h2, hw]
  · rw [if_neg h2]
    rw [dget_dupdate_of_not_mem (fun hmem => h2 ((mem_dkeys_country_name_mappings _ k).mp hmem))]
    by_cases h1 : k ∈ parsedCityNames raws ∧ (country_table k).isSome
    · rw [if_pos h1]
      obtain ⟨w, hw⟩ := Option.isSome_iff_exists.mp h1.2
      rw [hw]
      apply dget_dupdate_of_mem (nodupKeys_country_name_mappings _)
      · rw [dget_country_name_mappings, if_pos h1, hw]
    · rw [if_neg h1]
      rw [dget_dupdate_of_not_mem (fun hmem => h1 ((mem_dkeys_country_name_mappings _ k).mp hmem))]
      rw [dget_country_codes geo _ (parsedCityNames_lower raws)]

/-! ## Lemmas: entity lists, categorize, phone digits -/

theorem mem_fallback_entities {geo : String → GeoResult} {text : String} {e : Entity}
    (h : e ∈ (_fallback_extract_entities geo text).1) :
    (e.type = "city" ∨ e.type = "country" ∨ e.type = "hotel" ∨ e.type = "restaurant") ∧
      pyLower e.value = e.value := by
  unfold _fallback_extract_entities at h
  dsimp only at h
  rcases List.mem_append.mp h with h1 | h1
  · rcases List.mem_append.mp h1 with h2 | h2
    · obtain ⟨p, _, hp⟩ := List.mem_map.mp h2
      subst hp
      exact ⟨Or.inl rfl, pyLower_pyLower p.1⟩
    · obtain ⟨x, _, hx⟩ := List.mem_map.mp h2
      subst hx
      exact ⟨Or.inr (Or.inr (Or.inl rfl)), pyLower_pyLower x⟩
  · obtain ⟨x, hx, _⟩ := List.mem_map.mp h1
    simp [_extract_restaurants_fallback] at hx

theorem mem_extract_entities {llm : EntLLM} {geo : String → GeoResult} {text : String}
    {e : Entity} (h : e ∈ (extract_entities llm geo text).1) :
    (e.type = "city" ∨ e.type = "country" ∨ e.type = "hotel" ∨ e.type = "restaurant") ∧
      pyLower e.value = e.value := by
  cases llm with
  | failure => exact mem_fallback_entities h
  | unparseable => exact mem_fallback_entities h
  | parsedList raws =>
    obtain ⟨r, _, hr⟩ := List.mem_filterMap.mp h
    exact validateEntity_spec hr
  | parsedObj raws typos =>
    obtain ⟨r, _, hr⟩ := List.mem_filterMap.mp h
    exact validateEntity_spec hr

theorem categorize_mem (llm : Option String) (text : String) :
    categorize llm text = "urgent" ∨ categorize llm text = "high_risk" ∨
      categorize llm text = "base" := by
  cases llm with
  | none =>
    have hc : categorize none text = _fallback_categorize text := rfl
    rw [hc]
    unfold _fallback_categorize
    by_cases h1 : high_risk_keywords.any (fun k => strContains (pyLower text) k)
    · rw [if_pos h1]
      exact Or.inr (Or.inl rfl)
    · rw [if_neg h1]
      by_cases h2 : urgent_keywords.any (fun k => strContains (pyLower text) k)
      · rw [if_pos h2]
        exact Or.inl rfl
      · rw [if_neg h2]
        exact Or.inr (Or.inr rfl)
  | some content =>
    have hc : categorize (some content) text =
        (if pyLower (pyStrip content) = "urgent" ||
            pyLower (pyStrip content) = "high_risk" ||
            pyLower (pyStrip content) = "base" then pyLower (pyStrip content)
         else "base") := rfl
    rw [hc]
    by_cases h : pyLower (pyStrip content) = "urgent" ||
        pyLower (pyStrip content) = "high_risk" || pyLower (pyStrip content) = "base"
    · rw [if_pos h]
      rcases Bool.or_eq_true_iff.mp h with h1 | h1
      · rcases Bool.or_eq_true_iff.mp h1 with h2 | h2
        · exact Or.inl (by simpa using h2)
        · exact Or.inr (Or.inl (by simpa using h2))
      · exact Or.inr (Or.inr (by simpa using h1))
    · rw [if_neg h]
      exact Or.inr (Or.inr rfl)

theorem eatDigits_spec : ∀ (n : Nat) (cs g rest : List Char),
    eatDigits n cs = some (g, rest) → g.length = n ∧ ∀ c ∈ g, c.isDigit := by
  intro n
  induction n with
  | zero =>
    intro cs g rest h
    unfold eatDigits at h
    rw [Option.some_inj] at h
    injection h with hg hr
    rw [← hg]
    exact ⟨rfl, by simp⟩
  | succ m ih =>
    intro cs g rest h
    cases cs with
    | nil => cases h
    | cons c cs' =>
      unfold eatDigits at h
      by_cases hd : c.isDigit
      · rw [if_pos hd] at h
        cases hrec : eatDigits m cs' with
        | none => rw [hrec] at h; cases h
        | some p =>
          obtain ⟨g', rest'⟩ := p
          rw [hrec] at h
          have hg : c :: g' = g := by
            have := Option.some_inj.mp h
            exact (Prod.mk.injEq _ _ _ _ ▸ this).1
          obtain ⟨hlen, hdig⟩ := ih cs' g' rest' hrec
          rw [← hg]
          refine ⟨by simp [hlen], ?_⟩
          intro x hx
          rcases List.mem_cons.mp hx with h1 | h1
          · rw [h1]; exact hd
          · exact hdig x h1
      · rw [if_neg hd] at h
        cases h

theorem searchFrom_spec {α : Type} {m : List Char → Option α} {cs : List Char} {a : α}
    (h : searchFrom m cs = some a) : ∃ cs', m cs' = some a := by
  induction cs with
  | nil => exact ⟨[], h⟩
  | cons c rest ih =>
    unfold searchFrom at h
    cases hm : m (c :: rest) with
    | some b =>
      rw [hm] at h
      dsimp only at h
      exact ⟨c :: rest, by rw [hm]; exact h⟩
    | none =>
      rw [hm] at h
      exact ih h

/-- A ten-digit result shape for the three grouped phone patterns. -/
def tenDigitGroups (g1 g2 g3 : List Char) : Prop :=
  (g1.length = 3 ∧ ∀ c ∈ g1, c.isDigit) ∧ (g2.length = 3 ∧ ∀ c ∈ g2, c.isDigit) ∧
    (g3.length = 4 ∧ ∀ c ∈ g3, c.isDigit)

theorem matchPhone1_spec {cs g1 g2 g3 : List Char}
    (h : matchPhone1 cs = some (g1, g2, g3)) : tenDigitGroups g1 g2 g3 := by
  unfold matchPhone1 at h
  simp only [Option.bind_eq_some] at h
  obtain ⟨cs1, _, p1, hp1, cs3, _, p2, hp2, p3, hp3, hfin⟩ := h
  rw [Option.some_inj] at hfin
  injection hfin with h1 h23
  injection h23 with h2 h3
  subst h1; subst h2; subst h3
  exact ⟨eatDigits_spec _ _ _ _ hp1, eatDigits_spec _ _ _ _ hp2,
    eatDigits_spec _ _ _ _ hp3⟩

theorem matchPhone2_spec {cs g1 g2 g3 : List Char}
    (h : matchPhone2 cs = some (g1, g2, g3)) : tenDigitGroups g1 g2 g3 := by
  unfold matchPhone2 at h
  simp only [Option.bind_eq_some] at h
  obtain ⟨p1, hp1, cs2, _, p2, hp2, cs4, _, p3, hp3, hfin⟩ := h
  rw [Option.some_inj] at hfin
  injection hfin with h1 h23
  injection h23 with h2 h3
  subst h1; subst h2; subst h3
  exact ⟨eatDigits_spec _ _ _ _ hp1, eatDigits_spec _ _ _ _ hp2,
    eatDigits_spec _ _ _ _ hp3⟩

theorem matchPhone3_spec {cs g1 g2 g3 : List Char}
    (h : matchPhone3 cs = some (g1, g2, g3)) : tenDigitGroups g1 g2 g3 := by
  unfold matchPhone3 at h
  simp only [Option.bind_eq_some] at h
  obtain ⟨p1, hp1, cs2, _, p2, hp2, cs4, _, p3, hp3, hfin⟩ := h
  rw [Option.some_inj] at hfin
  injection hfin with h1 h23
  injection h23 with h2 h3
  subst h1; subst h2; subst h3
  exact ⟨eatDigits_spec _ _ _ _ hp1, eatDigits_spec _ _ _ _ hp2,
    eatDigits_spec _ _ _ _ hp3⟩

theorem extract_phone_digits_of_digits {l : List Char} (h : ∀ c ∈ l, c.isDigit) :
    extract_phone_digits ⟨l⟩ = ⟨l⟩ := by
  unfold extract_phone_digits
  congr 1
  exact List.filter_eq_self.mpr h

/-- Every phone number the regex fallback returns is exactly ten digits. -/
theorem phone_fallback_digits {text : String} {s : String}
    (h : _extract_phone_fallback text = some s) :
    s.data.length = 10 ∧ ∀ c ∈ s.data, c.isDigit := by
  have groups10 : ∀ g1 g2 g3 : List Char, tenDigitGroups g1 g2 g3 →
      (extract_phone_digits ⟨g1 ++ g2 ++ g3⟩).data.length = 10 ∧
        ∀ c ∈ (extract_phone_digits ⟨g1 ++ g2 ++ g3⟩).data, c.isDigit := by
    intro g1 g2 g3 hg
    have hall : ∀ c ∈ g1 ++ g2 ++ g3, c.isDigit := by
      intro c hc
      rcases List.mem_append.mp hc with h1 | h1
      · rcases List.mem_append.mp h1 with h2 | h2
        · exact hg.1.2 c h2
        · exact hg.2.1.2 c h2
      · exact hg.2.2.2 c h1
    rw [extract_phone_digits_of_digits hall]
    refine ⟨?_, hall⟩
    show (g1 ++ g2 ++ g3).length = 10
    rw [List.length_append, List.length_append, hg.1.1, hg.2.1.1, hg.2.2.1]
  unfold _extract_phone_fallback at h
  cases h1 : searchFrom matchPhone1 text.data with
  | some g =>
    obtain ⟨ga, gb, gc⟩ := g
    rw [h1] at h
    obtain ⟨cs', hcs'⟩ := searchFrom_spec h1
    rw [Option.some_inj] at h
    rw [← h]
    exact groups10 ga gb gc (matchPhone1_spec hcs')
  | none =>
    rw [h1] at h
    cases h2 : searchFrom matchPhone2 text.data with
    | some g =>
      obtain ⟨ga, gb, gc⟩ := g
      rw [h2] at h
      obtain ⟨cs', hcs'⟩ := searchFrom_spec h2
      rw [Option.some_inj] at h
      rw [← h]
      exact groups10 ga gb gc (matchPhone2_spec hcs')
    | none =>
      rw [h2] at h
      cases h3 : searchFrom matchPhone3 text.data with
      | some g =>
        obtain ⟨ga, gb, gc⟩ := g
        rw [h3] at h
        obtain ⟨cs', hcs'⟩ := searchFrom_spec h3
        rw [Option.some_inj] at h
        rw [← h]
        exact groups10 ga gb gc (matchPhone3_spec hcs')
      | none =>
        rw [h3] at h
        cases h4 : searchFrom matchPhone4 text.data with
        | some g =>
          rw [h4] at h
          obtain ⟨cs', hcs'⟩ := searchFrom_spec h4
          rw [Option.some_inj] at h
          rw [← h]
          unfold matchPhone4 at hcs'
          cases hed : eatDigits 10 cs' with
          | none => rw [hed] at hcs'; cases hcs'
          | some p =>
            rw [hed] at hcs'
            have hg : p.1 = g := Option.some_inj.mp hcs'
            obtain ⟨hlen, hdig⟩ := eatDigits_spec 10 cs' p.1 p.2 (by rw [hed])
            rw [← hg, extract_phone_digits_of_digits hdig]
            exact ⟨hlen, hdig⟩
        | none =>
          rw [h4] at h
          cases h

/-! ## Remaining support lemmas -/

theorem enrich_lookup_codes_eq (entities : List Entity)
    (country_map : List (String × String)) :
    enrich_lookup_codes entities country_map =
      if ((entities.filter (fun e => e.type = "city" || e.type = "country")).map
          (fun e => e.value)).isEmpty then []
      else emergency_lookup_codes country_map := rfl

theorem filter_llm_map_geocode (l : List String) (t : Rat) :
    (l.map (fun n => Call.geocode n t)).filter isLlmCall = [] := by
  induction l with
  | nil => rfl
  | cons n rest ih => simp [isLlmCall, ih]

theorem timeout_of_mem_map_geocode {l : List String} {t : Rat} {city : String} {τ : Rat}
    (h : Call.geocode city τ ∈ l.map (fun n => Call.geocode n t)) : τ = t := by
  obtain ⟨n, _, hn⟩ := List.mem_map.mp h
  injection hn with h1 h2
  rw [h2]

theorem timeout_of_mem_map_emergency {l : List String} {t : Rat} {code : String} {τ : Rat}
    (h : Call.emergency code τ ∈ l.map (fun c => Call.emergency c t)) : τ = t := by
  obtain ⟨n, _, hn⟩ := List.mem_map.mp h
  injection hn with h1 h2
  rw [h2]

theorem sinsert_ne_nil (acc : List String) (x : String) (h : acc ≠ []) :
    sinsert acc x ≠ [] := by
  unfold sinsert
  by_cases hx : x ∈ acc
  · rw [if_pos hx]; exact h
  · rw [if_neg hx]
    simp

theorem head_sinsert (acc : List String) (x : String) (h : acc ≠ []) :
    (sinsert acc x).head? = acc.head? := by
  unfold sinsert
  by_cases hx : x ∈ acc
  · rw [if_pos hx]
  · rw [if_neg hx]
    cases acc with
    | nil => exact absurd rfl h
    | cons a rest => rfl

theorem head_sinsert_fold (l : List String) (acc : List String) (h : acc ≠ []) :
    (l.foldl sinsert acc).head? = acc.head? := by
  induction l generalizing acc with
  | nil => rfl
  | cons x rest ih =>
    rw [List.foldl_cons, ih (sinsert acc x) (sinsert_ne_nil acc x h), head_sinsert acc x h]

theorem string_eq_empty_of_data_nil {s : String} (h : s.data = []) : s = "" := by
  cases s
  simp only [String.data] at h
  rw [h]

/-! ## Claim theorems -/

/-- Claim C1, counterexample.  The claim asserts that whenever the LLM
returns unparseable content the result equals the regex/keyword fallback.
For `categorize` this fails: on text `hospital` with LLM content `ok` (which
is not one of the three categories, hence unparseable as a category) the code
returns `base`, while the keyword fallback would return `high_risk`. -/
theorem counterexample_C1 :
    (pyLower (pyStrip "ok") ≠ "urgent" ∧ pyLower (pyStrip "ok") ≠ "high_risk" ∧
      pyLower (pyStrip "ok") ≠ "base") ∧
    categorize (some "ok") "hospital" = "base" ∧
    _fallback_categorize "hospital" = "high_risk" ∧
    categorize (some "ok") "hospital" ≠ _fallback_categorize "hospital" := by
  refine ⟨⟨?_, ?_, ?_⟩, ?_, ?_, ?_⟩ <;> decide

/-- Claim C1, amended: when the LLM call raises, all three operations return
exactly their regex/keyword fallback on the same text; when the call succeeds
but the content is unparseable, `extract_contact` and `extract_entities`
likewise return the fallback result, while `categorize` returns `base`
regardless of the fallback heuristic. -/
theorem thm_C1 :
    (∀ text, categorize none text = _fallback_categorize text) ∧
    (∀ text, extract_contact .failure text = _fallback_extract_contact text) ∧
    (∀ text, extract_contact .unparseable text = _fallback_extract_contact text) ∧
    (∀ geo text, extract_entities .failure geo text = _fallback_extract_entities geo text) ∧
    (∀ geo text,
      extract_entities .unparseable geo text = _fallback_extract_entities geo text) ∧
    (∀ content text, pyLower (pyStrip content) ≠ "urgent" →
      pyLower (pyStrip content) ≠ "high_risk" → pyLower (pyStrip content) ≠ "base" →
      categorize (some content) text = "base") := by
  refine ⟨fun _ => rfl, fun _ => rfl, fun _ => rfl, fun _ _ => rfl, fun _ _ => rfl, ?_⟩
  intro content text h1 h2 h3
  have hc : categorize (some content) text =
      (if pyLower (pyStrip content) = "urgent" ||
          pyLower (pyStrip content) = "high_risk" ||
          pyLower (pyStrip content) = "base" then pyLower (pyStrip content)
       else "base") := rfl
  rw [hc, if_neg]
  simp [h1, h2, h3]

/-- Claim C1, witness. -/
theorem witness_C1 :
    categorize none "call me today" = _fallback_categorize "call me today" ∧
    categorize (some "banana") "hospital" = "base" :=
  ⟨thm_C1.1 "call me today",
   thm_C1.2.2.2.2.2 "banana" "hospital" (by decide) (by decide) (by decide)⟩

/-- Claim C5, counterexample.  An invalid request body raises
`RequestValidationError`, which FastAPI's pre-registered exact-class handler
answers with status 422 and body `{"detail": [...]}` — not 400, not 500, and
not of the `error`/`detail` string-object shape the claim asserts for every
error response. -/
theorem counterexample_C5 :
    (respond (.bodyValidationError [Json.str "field required"])).1 ≠ 200 ∧
    (respond (.bodyValidationError [Json.str "field required"])).1 ≠ 400 ∧
    (respond (.bodyValidationError [Json.str "field required"])).1 ≠ 500 ∧
    (respond (.bodyValidationError [Json.str "field required"])).1 = 422 ∧
    ¬ ∃ e d, (respond (.bodyValidationError [Json.str "field required"])).2 =
        Json.obj [("error", Json.str e), ("detail", Json.str d)] := by
  refine ⟨by decide, by decide, by decide, rfl, ?_⟩
  rintro ⟨e, d, h⟩
  injection h with h1
  simp at h1

/-- Claim C5, amended: a request-body validation failure is answered by
FastAPI's default `RequestValidationError` handler with status 422 and a
body of shape `detail` holding a list; every other error response is a 400
(the `ValidationError` handler registered in `app.py`, unreachable for body
validation) or a 500 for internal errors, with a body of shape
`error`/`detail` with string values. -/
theorem thm_C5 (rc : RequestOutcome) (hne : (respond rc).1 ≠ 200) :
    ((respond rc).1 = 422 ∧
      ∃ errs, (respond rc).2 = Json.obj [("detail", Json.arr errs)]) ∨
    (((respond rc).1 = 400 ∨ (respond rc).1 = 500) ∧
      ∃ e d, (respond rc).2 = Json.obj [("error", Json.str e), ("detail", Json.str d)]) := by
  cases rc with
  | bodyValidationError errs => exact Or.inl ⟨rfl, errs, rfl⟩
  | validationError msg => exact Or.inr ⟨Or.inl rfl, "BadRequest", msg, rfl⟩
  | handlerException =>
    exact Or.inr ⟨Or.inr rfl, "InternalError", "An internal error occurred", rfl⟩
  | unhandledException =>
    exact Or.inr ⟨Or.inr rfl, "InternalError", "An unexpected error occurred", rfl⟩
  | success resp => exact absurd rfl hne

/-- Claim C5, witness. -/
theorem witness_C5 :
    (((respond (.bodyValidationError [Json.str "field required"])).1 = 422 ∧
      ∃ errs, (respond (.bodyValidationError [Json.str "field required"])).2 =
        Json.obj [("detail", Json.arr errs)]) ∨
    (((respond (.bodyValidationError [Json.str "field required"])).1 = 400 ∨
      (respond (.bodyValidationError [Json.str "field required"])).1 = 500) ∧
      ∃ e d, (respond (.bodyValidationError [Json.str "field required"])).2 =
        Json.obj [("error", Json.str e), ("detail", Json.str d)])) ∧
    (((respond .handlerException).1 = 422 ∧
      ∃ errs, (respond .handlerException).2 = Json.obj [("detail", Json.arr errs)]) ∨
    (((respond .handlerException).1 = 400 ∨ (respond .handlerException).1 = 500) ∧
      ∃ e d, (respond .handlerException).2 =
        Json.obj [("error", Json.str e), ("detail", Json.str d)])) :=
  ⟨thm_C5 (.bodyValidationError [Json.str "field required"]) (by decide),
   thm_C5 .handlerException (by decide)⟩

/-- Claim C7: a successful `/normalize` response echoes the request
`message_id`, its category is one of the three literals, and the `contact`,
`entities` and `enrichment` fields are each optional (present or absent). -/
theorem thm_C7 (o : Oracles) (request : NormalizeIn) :
    (normalize_message o request).message_id = request.message_id ∧
    ((normalize_message o request).category = "urgent" ∨
      (normalize_message o request).category = "high_risk" ∨
      (normalize_message o request).category = "base") ∧
    ((normalize_message o request).contact = none ∨
      ∃ c, (normalize_message o request).contact = some c) ∧
    ((normalize_message o request).entities = none ∨
      ∃ es, (normalize_message o request).entities = some es) ∧
    ((normalize_message o request).enrichment = none ∨
      ∃ en, (normalize_message o request).enrichment = some en) := by
  refine ⟨rfl, ?_, ?_, ?_, ?_⟩
  · have hcat : (normalize_message o request).category =
        categorize o.catLLM request.text := rfl
    rw [hcat]
    exact categorize_mem o.catLLM request.text
  · cases h : (normalize_message o request).contact with
    | none => exact Or.inl rfl
    | some c => exact Or.inr ⟨c, rfl⟩
  · cases h : (normalize_message o request).entities with
    | none => exact Or.inl rfl
    | some es => exact Or.inr ⟨es, rfl⟩
  · cases h : (normalize_message o request).enrichment with
    | none => exact Or.inl rfl
    | some en => exact Or.inr ⟨en, rfl⟩

/-- Claim C8: every entity produced by entity extraction, on the LLM path as
well as on the regex fallback path, has a value fixed by lowercasing and a
type among city, country, hotel, restaurant. -/
theorem thm_C8 (llm : EntLLM) (geo : String → GeoResult) (text : String) :
    ∀ e ∈ (extract_entities llm geo text).1,
      (e.type = "city" ∨ e.type = "country" ∨ e.type = "hotel" ∨ e.type = "restaurant") ∧
        pyLower e.value = e.value :=
  fun _ he => mem_extract_entities he

/-- Claim C8, witness. -/
theorem witness_C8 :
    (Entity.mk "city" "rome" ∈
      (extract_entities (.parsedObj [⟨some "city", some " Rome "⟩] noTypos)
        (fun _ => .empty) "x").1) ∧
    ((Entity.mk "city" "rome").type = "city" ∨ (Entity.mk "city" "rome").type = "country" ∨
      (Entity.mk "city" "rome").type = "hotel" ∨
      (Entity.mk "city" "rome").type = "restaurant") ∧
      pyLower (Entity.mk "city" "rome").value = (Entity.mk "city" "rome").value :=
  ⟨by decide,
   thm_C8 (.parsedObj [⟨some "city", some " Rome "⟩] noTypos) (fun _ => .empty) "x"
     (Entity.mk "city" "rome") (by decide)⟩

/-- Claim C9, counterexample.  On the LLM path a JSON object with `phone`
equal to the empty string is passed through unchanged (the Python truthiness
check skips revalidation of falsy values), so the resulting phone is neither
null nor a 10-digit string.  The same pass-through happens for every falsy
JSON value, e.g. the number `0`. -/
theorem counterexample_C9 :
    (extract_contact
      (.parsed ⟨Json.null, Json.null, Json.null, Json.str "", Json.null⟩) "x").phone =
        Json.str "" ∧
    ("" : String).data.length ≠ 10 ∧
    (extract_contact
      (.parsed ⟨Json.null, Json.null, Json.null, Json.num 0, Json.null⟩) "x").phone =
        Json.num 0 :=
  ⟨rfl, by decide, rfl⟩

/-- Claim C9, amended: the phone field produced by `extract_contact` is
always either null, a falsy JSON value passed through unchanged (the empty
string, zero, false, an empty array or object — Python truthiness skips
their revalidation), or a string of exactly ten digits; a truthy non-string
field makes the revalidation raise, in which case the whole extraction falls
back to the regex path, whose phone is null or exactly ten digits. -/
theorem thm_C9 (llm : ContactLLM) (text : String) :
    (extract_contact llm text).phone = Json.null ∨
    jsonTruthy (extract_contact llm text).phone = false ∨
    ∃ s, (extract_contact llm text).phone = Json.str s ∧ s.data.length = 10 ∧
      ∀ c ∈ s.data, c.isDigit := by
  have fallback_case : ∀ t : String,
      (_fallback_extract_contact t).phone = Json.null ∨
      jsonTruthy (_fallback_extract_contact t).phone = false ∨
      ∃ s, (_fallback_extract_contact t).phone = Json.str s ∧ s.data.length = 10 ∧
        ∀ c ∈ s.data, c.isDigit := by
    intro t
    have hph : (_fallback_extract_contact t).phone =
        encOptStr (_extract_phone_fallback t) := rfl
    rw [hph]
    cases h : _extract_phone_fallback t with
    | none => exact Or.inl rfl
    | some s =>
      obtain ⟨hlen, hdig⟩ := phone_fallback_digits h
      exact Or.inr (Or.inr ⟨s, rfl, hlen, hdig⟩)
  cases llm with
  | failure => exact fallback_case text
  | unparseable => exact fallback_case text
  | parsed j =>
    have hext : extract_contact (.parsed j) text =
        (match cleanContact j with
         | some cleaned => cleaned
         | none => _fallback_extract_contact text) := rfl
    rw [hext]
    cases hcc : cleanContact j with
    | none => exact fallback_case text
    | some c =>
      dsimp only
      unfold cleanContact at hcc
      simp only [Option.bind_eq_some] at hcc
      obtain ⟨e, he, p, hp, z, hz, hfin⟩ := hcc
      rw [Option.some_inj] at hfin
      have hcp : c.phone = p := by rw [← hfin]
      rw [hcp]
      unfold cleanFieldPhone at hp
      by_cases ht : jsonTruthy j.phone
      · rw [if_pos ht] at hp
        cases hj : j.phone with
        | str s =>
          rw [hj] at hp
          dsimp only at hp
          rw [Option.some_inj] at hp
          by_cases hlen : (extract_phone_digits s).data.length = 10
          · rw [if_pos hlen] at hp
            refine Or.inr (Or.inr ⟨extract_phone_digits s, hp.symm, hlen, ?_⟩)
            intro c hc
            unfold extract_phone_digits at hc
            exact (List.mem_filter.mp hc).2
          · rw [if_neg hlen] at hp
            exact Or.inl hp.symm
        | null => rw [hj] at hp; cases hp
        | num n => rw [hj] at hp; cases hp
        | bool b => rw [hj] at hp; cases hp
        | arr l => rw [hj] at hp; cases hp
        | obj l => rw [hj] at hp; cases hp
      · rw [if_neg ht] at hp
        rw [Option.some_inj] at hp
        rw [← hp]
        exact Or.inr (Or.inl (by simpa using ht))

/-- Claim C2: geocoding and emergency-number calls fail independently with
best-effort partial success.  A task that raised or yielded no usable result
contributes no entry (every country-map entry comes from a successful
geocoding task, every collected emergency number from a successful fetch),
and every successful task's result is included. -/
theorem thm_C2 :
    (∀ (geo : String → GeoResult) (names : List String) (k v : String),
        dget (_get_country_codes geo names) k = some v →
        ∃ n ∈ names, pyLower n = k ∧ ∃ nm, geo n = .found nm v) ∧
    (∀ (geo : String → GeoResult) (names : List String) (n nm code : String),
        n ∈ names → geo n = .found nm code →
        (dget (_get_country_codes geo names) (pyLower n)).isSome) ∧
    (∀ (fetch : String → Except Unit (List String))
        (country_map : List (String × String)) (x : String),
        x ∈ emergencyNumbersSet fetch country_map ↔
          ∃ code ∈ emergency_lookup_codes country_map,
            ∃ ns, fetch code = .ok ns ∧ x ∈ ns) := by
  refine ⟨?_, ?_, ?_⟩
  · intro geo names k v h
    rcases gstep_fold_entries geo names [] k v h with h1 | h1
    · exact h1
    · simp [dget] at h1
  · intro geo names n nm code hn hg
    exact gstep_fold_success_mem geo names [] n nm code hn hg
  · intro fetch country_map x
    exact mem_emergencyNumbersSet fetch country_map x

/-- Claim C2, witness. -/
theorem witness_C2 :
    (∃ n ∈ ["paris", "rome"], pyLower n = "paris" ∧
      ∃ nm, (fun s => if s = "paris" then GeoResult.found "P" "FR" else .error) n =
        GeoResult.found nm "FR") ∧
    (dget (_get_country_codes
        (fun s => if s = "paris" then GeoResult.found "P" "FR" else .error)
        ["paris", "rome"]) (pyLower "paris")).isSome ∧
    ("17" ∈ emergencyNumbersSet
        (fun c => if c = "FR" then .ok ["112", "17"] else .error ()) [("paris", "FR")] ↔
      ∃ code ∈ emergency_lookup_codes [("paris", "FR")],
        ∃ ns, (fun c => if c = "FR" then Except.ok ["112", "17"]
          else Except.error ()) code = .ok ns ∧ "17" ∈ ns) :=
  ⟨thm_C2.1 (fun s => if s = "paris" then GeoResult.found "P" "FR" else .error)
      ["paris", "rome"] "paris" "FR" (by decide),
   thm_C2.2.1 (fun s => if s = "paris" then GeoResult.found "P" "FR" else .error)
      ["paris", "rome"] "paris" "P" "FR" (by decide) (by decide),
   thm_C2.2.2 (fun c => if c = "FR" then .ok ["112", "17"] else .error ())
      [("paris", "FR")] "17"⟩

/-- Membership of a validated value in the city-name batch. -/
theorem mem_parsedCityNames_of_entity {raws : List RawEntity} {e : Entity}
    (he : e ∈ raws.filterMap validateEntity) (ht : e.type = "city") :
    e.value ∈ parsedCityNames raws :=
  List.mem_map.mpr ⟨e, List.mem_filter.mpr ⟨he, by simp [ht]⟩, rfl⟩

/-- Membership of a validated value in the country-name batch. -/
theorem mem_parsedCountryNames_of_entity {raws : List RawEntity} {e : Entity}
    (he : e ∈ raws.filterMap validateEntity) (ht : e.type = "country") :
    e.value ∈ parsedCountryNames raws :=
  List.mem_map.mpr ⟨e, List.mem_filter.mpr ⟨he, by simp [ht]⟩, rfl⟩

/-- Claim C3: on the parsed path, a city or country entity whose value is in
the static table gets the static code in the final map (overriding
geocoding); a city entity absent from the table keeps the geocoder's code;
and a country entity is resolved through the static table only (a country
value not in the table gets no entry, unless the same value is also a city
entity). -/
theorem thm_C3 (geo : String → GeoResult) (raws : List RawEntity) (typos : Typos) :
    (∀ e ∈ (parsedBranch geo raws typos).1, (e.type = "city" ∨ e.type = "country") →
      ∀ code, country_table e.value = some code →
        dget (parsedBranch geo raws typos).2.1 e.value = some code) ∧
    (∀ e ∈ (parsedBranch geo raws typos).1, e.type = "city" →
      country_table e.value = none →
      ∀ nm code, geo e.value = .found nm code →
        dget (parsedBranch geo raws typos).2.1 e.value = some code) ∧
    (∀ e ∈ (parsedBranch geo raws typos).1, e.type = "country" →
      country_table e.value = none →
      e.value ∉ parsedCityNames raws →
        dget (parsedBranch geo raws typos).2.1 e.value = none) := by
  have hfst : (parsedBranch geo raws typos).1 = raws.filterMap validateEntity := rfl
  refine ⟨?_, ?_, ?_⟩
  · intro e he htype code hcode
    rw [hfst] at he
    rw [dget_parsed_map]
    rcases htype with ht | ht
    · have hc : e.value ∈ parsedCityNames raws := mem_parsedCityNames_of_entity he ht
      by_cases h2 : e.value ∈ parsedCountryNames raws ∧ (country_table e.value).isSome
      · rw [if_pos h2, hcode]
      · rw [if_neg h2, if_pos ⟨hc, by simp [hcode]⟩, hcode]
    · have hc : e.value ∈ parsedCountryNames raws := mem_parsedCountryNames_of_entity he ht
      rw [if_pos ⟨hc, by simp [hcode]⟩, hcode]
  · intro e he ht hnone nm code hg
    rw [hfst] at he
    rw [dget_parsed_map]
    have hc : e.value ∈ parsedCityNames raws := mem_parsedCityNames_of_entity he ht
    rw [if_neg (fun h => by simp [hnone] at h), if_neg (fun h => by simp [hnone] at h),
      if_pos ⟨hc, by simp [geoCode?, hg]⟩]
    simp [geoCode?, hg]
  · intro e he ht hnone hnotcity
    rw [hfst] at he
    rw [dget_parsed_map]
    rw [if_neg (fun h => by simp [hnone] at h), if_neg (fun h => by simp [hnone] at h),
      if_neg (fun h => hnotcity h.1)]

/-- Claim C3, witness. -/
theorem witness_C3 :
    (Entity.mk "city" "paris" ∈
      (parsedBranch (fun _ => .found "P" "XX") [⟨some "city", some "Paris"⟩] noTypos).1) ∧
    dget (parsedBranch (fun _ => .found "P" "XX")
      [⟨some "city", some "Paris"⟩] noTypos).2.1 "paris" = some "FR" :=
  ⟨by decide,
   (thm_C3 (fun _ => .found "P" "XX") [⟨some "city", some "Paris"⟩] noTypos).1
     (Entity.mk "city" "paris") (by decide) (Or.inl rfl) "FR" (by decide)⟩

/-- The lookup count of `enrich` under the caller invariant that every key
of the country map is the value of some city or country entity. -/
theorem lookup_count_of_covered (entities : List Entity)
    (country_map : List (String × String))
    (hcov : ∀ k ∈ dkeys country_map,
      ∃ e ∈ entities, (e.type = "city" ∨ e.type = "country") ∧ e.value = k) :
    (enrich_lookup_codes entities country_map).length =
      ((dvalues country_map).dedup).length := by
  cases hmap : country_map with
  | nil =>
    rw [enrich_lookup_codes_eq]
    by_cases hl : ((entities.filter (fun e => e.type = "city" || e.type = "country")).map
        (fun e => e.value)).isEmpty
    · rw [if_pos hl]
      rfl
    · rw [if_neg hl]
      rfl
  | cons p rest =>
    obtain ⟨e, he, htype, hval⟩ := hcov p.1 (by rw [hmap]; simp [dkeys])
    have hloc : e.value ∈
        (entities.filter (fun e => e.type = "city" || e.type = "country")).map
          (fun e => e.value) :=
      List.mem_map.mpr ⟨e, List.mem_filter.mpr ⟨he, by
        rcases htype with h | h <;> simp [h]⟩, rfl⟩
    rw [enrich_lookup_codes_eq]
    rw [if_neg (by
      intro hemp
      rw [List.isEmpty_iff] at hemp
      rw [hemp] at hloc
      cases hloc)]
    apply List.Perm.length_eq
    rw [List.perm_ext_iff_of_nodup (emergency_lookup_codes_nodup _) (List.nodup_dedup _)]
    intro a
    rw [mem_emergency_lookup_codes, List.mem_dedup]

theorem mem_dkeys_dupdate {m1 m2 : List (String × String)} {k : String}
    (h : k ∈ dkeys (dupdate m1 m2)) : k ∈ dkeys m1 ∨ k ∈ dkeys m2 := by
  induction m2 generalizing m1 with
  | nil => exact Or.inl h
  | cons p rest ih =>
    rcases ih (h := h) with h1 | h1
    · rcases mem_dkeys_dinsert.mp h1 with h2 | h2
      · exact Or.inr ((mem_dkeys_cons p rest k).mpr (Or.inl h2.symm))
      · exact Or.inl h2
    · exact Or.inr ((mem_dkeys_cons p rest k).mpr (Or.inr h1))

/-- Every key of the country map produced by `extract_entities` is the value
of one of its city or country entities (on both the parsed and the fallback
path). -/
theorem extract_entities_keys_covered (llm : EntLLM) (geo : String → GeoResult)
    (text : String) :
    ∀ k ∈ dkeys (extract_entities llm geo text).2.1,
      ∃ e ∈ (extract_entities llm geo text).1,
        (e.type = "city" ∨ e.type = "country") ∧ e.value = k := by
  have parsed_case : ∀ (raws : List RawEntity) (typos : Typos),
      ∀ k ∈ dkeys (parsedBranch geo raws typos).2.1,
        ∃ e ∈ (parsedBranch geo raws typos).1,
          (e.type = "city" ∨ e.type = "country") ∧ e.value = k := by
    intro raws typos k hk
    have hfst : (parsedBranch geo raws typos).1 = raws.filterMap validateEntity := rfl
    rw [parsedBranch_country_map] at hk
    have hcity : k ∈ parsedCityNames raws →
        ∃ e ∈ (parsedBranch geo raws typos).1,
          (e.type = "city" ∨ e.type = "country") ∧ e.value = k := by
      intro hmem
      obtain ⟨e, he, hv⟩ := List.mem_map.mp hmem
      exact ⟨e, by rw [hfst]; exact List.mem_of_mem_filter he,
        Or.inl (by simpa using (List.mem_filter.mp he).2), hv⟩
    rcases mem_dkeys_dupdate hk with h1 | h1
    · rcases mem_dkeys_dupdate h1 with h2 | h2
      · obtain ⟨v, hv⟩ := Option.isSome_iff_exists.mp
          ((dget_isSome_iff_mem_dkeys _ k).mpr h2)
        rcases gstep_fold_entries geo (parsedCityNames raws) [] k v hv with h3 | h3
        · obtain ⟨n, hn, hlow, _⟩ := h3
          rw [parsedCityNames_lower raws n hn] at hlow
          subst hlow
          exact hcity hn
        · simp [dget] at h3
      · exact hcity ((mem_dkeys_country_name_mappings _ k).mp h2).1
    · have hmem := ((mem_dkeys_country_name_mappings _ k).mp h1).1
      obtain ⟨e, he, hv⟩ := List.mem_map.mp hmem
      exact ⟨e, by rw [hfst]; exact List.mem_of_mem_filter he,
        Or.inr (by simpa using (List.mem_filter.mp he).2), hv⟩
  have fallback_case :
      ∀ k ∈ dkeys (_fallback_extract_entities geo text).2.1,
        ∃ e ∈ (_fallback_extract_entities geo text).1,
          (e.type = "city" ∨ e.type = "country") ∧ e.value = k := by
    intro k hk
    have hmap : (_fallback_extract_entities geo text).2.1 =
        (_validate_cities_fallback geo (_extract_city_candidates_fallback text)).foldl
          (fun m p => dinsert m (pyLower p.1) p.2) [] := rfl
    rw [hmap] at hk
    have main : ∀ (l : List (String × String)) (acc : List (String × String)),
        k ∈ dkeys (l.foldl (fun m p => dinsert m (pyLower p.1) p.2) acc) →
        k ∈ dkeys acc ∨ ∃ p ∈ l, pyLower p.1 = k := by
      intro l
      induction l with
      | nil => exact fun acc h => Or.inl h
      | cons p rest ih =>
        intro acc h
        rw [List.foldl_cons] at h
        rcases ih (dinsert acc (pyLower p.1) p.2) h with h1 | h1
        · rcases mem_dkeys_dinsert.mp h1 with h2 | h2
          · exact Or.inr ⟨p, List.mem_cons_self p rest, h2.symm⟩
          · exact Or.inl h2
        · obtain ⟨q, hq, hqv⟩ := h1
          exact Or.inr ⟨q, List.mem_cons_of_mem p hq, hqv⟩
    rcases main _ [] hk with h1 | h1
    · cases h1
    · obtain ⟨p, hp, hpv⟩ := h1
      refine ⟨Entity.mk "city" (pyLower p.1), ?_, Or.inl rfl, hpv⟩
      show _ ∈ (_fallback_extract_entities geo text).1
      have hents : (_fallback_extract_entities geo text).1 =
          (_validate_cities_fallback geo (_extract_city_candidates_fallback text)).map
            (fun p => Entity.mk "city" (pyLower p.1)) ++
          (_extract_hotels_fallback text).map (fun h => Entity.mk "hotel" (pyLower h)) ++
          (_extract_restaurants_fallback text).map
            (fun r => Entity.mk "restaurant" (pyLower r)) := rfl
      rw [hents]
      exact List.mem_append_left _ (List.mem_append_left _
        (List.mem_map.mpr ⟨p, hp, rfl⟩))
  cases llm with
  | failure => exact fallback_case
  | unparseable => exact fallback_case
  | parsedList raws => exact parsed_case raws noTypos
  | parsedObj raws typos => exact parsed_case raws typos

/-- Claim C4: for every entity-extraction outcome, enrichment issues exactly
one emergency-number lookup per distinct country code of the country map. -/
theorem thm_C4 (llm : EntLLM) (geo : String → GeoResult) (text : String) :
    (enrich_lookup_codes (extract_entities llm geo text).1
        (extract_entities llm geo text).2.1).length =
      ((dvalues (extract_entities llm geo text).2.1).dedup).length :=
  lookup_count_of_covered _ _ (extract_entities_keys_covered llm geo text)

/-- Claim C6: per request each operation issues exactly one LLM call (with
the fixed 10-second client timeout) and never retries it — the fallback path
adds no LLM call; every geocoding and emergency call carries the single
configured timeout; and no country code is looked up twice by enrichment. -/
theorem thm_C6 :
    (categorize_calls = [Call.llm 10] ∧ extract_contact_calls = [Call.llm 10]) ∧
    (∀ (llm : EntLLM) (text : String) (t : Rat),
      (extract_entities_calls llm text t).filter isLlmCall = [Call.llm 10]) ∧
    (∀ (llm : EntLLM) (text : String) (t : Rat) (city : String) (τ : Rat),
      Call.geocode city τ ∈ extract_entities_calls llm text t → τ = t) ∧
    (∀ (entities : List Entity) (country_map : List (String × String)),
      (enrich_lookup_codes entities country_map).Nodup) ∧
    (∀ (entities : List Entity) (country_map : List (String × String)) (t : Rat)
      (code : String) (τ : Rat),
      Call.emergency code τ ∈ enrich_calls entities country_map t → τ = t) := by
  refine ⟨⟨rfl, rfl⟩, ?_, ?_, ?_, ?_⟩
  · intro llm text t
    unfold extract_entities_calls
    rw [List.filter_cons]
    simp only [isLlmCall, if_pos]
    rw [filter_llm_map_geocode]
  · intro llm text t city τ h
    unfold extract_entities_calls at h
    rcases List.mem_cons.mp h with h1 | h1
    · cases h1
    · exact timeout_of_mem_map_geocode h1
  · intro entities country_map
    rw [enrich_lookup_codes_eq]
    by_cases hl : ((entities.filter (fun e => e.type = "city" || e.type = "country")).map
        (fun e => e.value)).isEmpty
    · rw [if_pos hl]
      exact List.nodup_nil
    · rw [if_neg hl]
      exact emergency_lookup_codes_nodup country_map
  · intro entities country_map t code τ h
    exact timeout_of_mem_map_emergency h

/-- Claim C6, witness. -/
theorem witness_C6 :
    ((extract_entities_calls .failure "need to go to Paris" 1).filter isLlmCall =
      [Call.llm 10]) ∧
    (Call.geocode "Paris" 1 ∈ extract_entities_calls .failure "need to go to Paris" 1) ∧
    (1 : Rat) = 1 ∧
    (enrich_lookup_codes [Entity.mk "city" "paris"] [("paris", "FR")]).Nodup :=
  ⟨thm_C6.2.1 .failure "need to go to Paris" 1,
   by decide,
   thm_C6.2.2.1 .failure "need to go to Paris" 1 "Paris" 1 (by decide),
   thm_C6.2.2.2.1 [Entity.mk "city" "paris"] [("paris", "FR")]⟩

/-- Every element of the raw emergency-number list is non-blank. -/
theorem emergencyNumbersRaw_nonblank (data : EmergencyData) :
    ∀ n ∈ emergencyNumbersRaw data, (pyStrip n).data.isEmpty = false := by
  intro n hn
  unfold emergencyNumbersRaw at hn
  have hbase : ∀ x ∈ (if data.member_112 then ["112"] else ([] : List String)),
      (pyStrip x).data.isEmpty = false := by
    intro x hx
    by_cases hm : data.member_112
    · rw [if_pos hm] at hx
      simp only [List.mem_singleton] at hx
      subst hx
      decide
    · rw [if_neg hm] at hx
      cases hx
  have hstage1 : ∀ x ∈ (if listTruthy data.dispatch_all then
      (if data.member_112 then ["112"] else []) ++
        (data.dispatch_all.getD []).filter (fun num => !(pyStrip num).data.isEmpty)
    else (if data.member_112 then ["112"] else ([] : List String))),
      (pyStrip x).data.isEmpty = false := by
    intro x hx
    by_cases hd : listTruthy data.dispatch_all
    · rw [if_pos hd] at hx
      rcases List.mem_append.mp hx with h1 | h1
      · exact hbase x h1
      · have := (List.mem_filter.mp h1).2
        simpa using this
    · rw [if_neg hd] at hx
      exact hbase x hx
  dsimp only at hn
  by_cases hp : listTruthy data.police_all
  · rw [if_pos hp] at hn
    rcases List.mem_append.mp hn with h1 | h1
    · exact hstage1 n h1
    · have := (List.mem_filter.mp h1).2
      rcases Bool.and_eq_true_iff.mp this with ⟨ha, _⟩
      simpa using ha
  · rw [if_neg hp] at hn
    exact hstage1 n hn

/-- For a 112-group member the raw list starts with `112`. -/
theorem emergencyNumbersRaw_head (data : EmergencyData) (hm : data.member_112 = true) :
    ∃ rest, emergencyNumbersRaw data = "112" :: rest := by
  unfold emergencyNumbersRaw
  dsimp only
  rw [hm]
  by_cases hd : listTruthy data.dispatch_all
  · rw [if_pos hd]
    by_cases hp : listTruthy data.police_all
    · rw [if_pos hp]
      exact ⟨_, rfl⟩
    · rw [if_neg hp]
      exact ⟨_, rfl⟩
  · rw [if_neg hd]
    by_cases hp : listTruthy data.police_all
    · rw [if_pos hp]
      exact ⟨_, rfl⟩
    · rw [if_neg hp]
      exact ⟨_, rfl⟩

/-- Claim C10: for every outcome of one emergency-number fetch, the returned
list has no duplicates and no blank entries, starts with `112` whenever the
response data marks the country as a 112-group member, and is empty when the
call raised. -/
theorem thm_C10 (resp : Except Unit EmergencyApiResponse) :
    (_fetch_emergency_numbers resp).Nodup ∧
    (∀ n ∈ _fetch_emergency_numbers resp, (pyStrip n).data.isEmpty = false) ∧
    (∀ data, resp = .ok (.ok data) → data.member_112 = true →
      (_fetch_emergency_numbers resp).head? = some "112") ∧
    (∀ u, resp = .error u → _fetch_emergency_numbers resp = []) := by
  refine ⟨?_, ?_, ?_, ?_⟩
  · cases resp with
    | error u => exact List.nodup_nil
    | ok r =>
      cases r with
      | invalid => exact List.nodup_nil
      | ok data => exact nodup_sinsert_fold _ [] (by simp)
  · cases resp with
    | error u => intro n hn; cases hn
    | ok r =>
      cases r with
      | invalid => intro n hn; cases hn
      | ok data =>
        intro n hn
        rcases (mem_sinsert_fold _ [] n).mp hn with h1 | h1
        · cases h1
        · exact emergencyNumbersRaw_nonblank data n h1
  · intro data hresp hm
    subst hresp
    obtain ⟨rest, hraw⟩ := emergencyNumbersRaw_head data hm
    show ((emergencyNumbersRaw data).foldl sinsert []).head? = some "112"
    rw [hraw, List.foldl_cons]
    have hfirst : sinsert [] "112" = ["112"] := rfl
    rw [hfirst, head_sinsert_fold rest ["112"] (by simp)]
    rfl
  · intro u hresp
    subst hresp
    rfl

/-- Claim C10, witness. -/
theorem witness_C10 :
    (_fetch_emergency_numbers (.ok (.ok ⟨true, some ["911", " "], some ["17"]⟩))).Nodup ∧
    (_fetch_emergency_numbers
      (.ok (.ok ⟨true, some ["911", " "], some ["17"]⟩))).head? = some "112" ∧
    _fetch_emergency_numbers (.error ()) = [] :=
  ⟨(thm_C10 (.ok (.ok ⟨true, some ["911", " "], some ["17"]⟩))).1,
   (thm_C10 (.ok (.ok ⟨true, some ["911", " "], some ["17"]⟩))).2.2.1
     ⟨true, some ["911", " "], some ["17"]⟩ rfl rfl,
   (thm_C10 (.error ())).2.2.2 () rfl⟩

end NormalizeBot
